import Mathlib

/-!
dtao: markup interpreter, region table and pointer state machine.

A shallow embedding of `src/dtao.c` and the properties of it that the
specification states.

Conventions of the embedding

* A `char` is a natural number (its byte value); `0` is the terminator.
* A `char *` into the line buffer is an index into a `Buf` (a list of bytes);
  a read beyond the end of the list yields `0`.  Functions that only read a
  string take the bytes of the string up to its terminator (`cstr`).
* `uint32_t` arithmetic is arithmetic of naturals reduced with `u32`;
  `int` results are integers wrapped with `i32`.
* The static arrays `clickables` and `clickstack` are total maps from indices,
  so that an access at an index `>= MAX_CLICKABLES` is visible as an access.
  Such an access is undefined behaviour in C: the maps are the arrays only
  while every index stays below `MAX_CLICKABLES`, and the theorems that
  confirm what the code does are stated for runs that stay within that bound.
* `BARF` (print and `exit`) is the error of `Except Fatal`.
-/

namespace Dtao

/-! ## Constants and machine integers -/

/-- Source: `#define MAX_CLICKABLES 64`. -/
def MAX_CLICKABLES : Nat := 64

/-- Source: `#define SCROLL_THRESHOLD 400`. -/
def SCROLL_THRESHOLD : Int := 400

/-- Conversion of an integer to `uint32_t`: reduction modulo `2^32`. -/
def u32 (x : Int) : Nat := (x % 4294967296).toNat

/-- Conversion of an integer to `int` / `int32_t`: wrap-around of the twos complement. -/
def i32 (x : Int) : Int := (x + 2147483648) % 4294967296 - 2147483648

/-- Conversion to `uint16_t` (a pixman colour channel). -/
def u16 (x : Nat) : Nat := x % 65536

/-- Conversion to `uint8_t` (the button of a clickable). -/
def u8 (x : Nat) : Nat := x % 256

/-! ## `<ctype.h>`, `<stdlib.h>` and `<string.h>` in the C locale -/

/-- C `isdigit`. -/
def isdigit (c : Nat) : Bool := decide (48 ≤ c) && decide (c ≤ 57)

/-- C `isxdigit`. -/
def isxdigit (c : Nat) : Bool :=
  isdigit c || (decide (65 ≤ c) && decide (c ≤ 70)) || (decide (97 ≤ c) && decide (c ≤ 102))

/-- C `isspace`: space, `\t`, `\n`, `\v`, `\f`, `\r`. -/
def isspace (c : Nat) : Bool := decide (c = 32) || (decide (9 ≤ c) && decide (c ≤ 13))

/-- Value of a hexadecimal digit. -/
def xdigit_val (c : Nat) : Nat :=
  if isdigit c then c - 48 else if 97 ≤ c then c - 87 else c - 55

/-- The bytes of an ASCII string literal. -/
def bytes (s : String) : List Nat := s.toList.map Char.toNat

/-- Digit loop of `strtoul(_, _, 16)`: consumes hexadecimal digits, returns
the accumulated value and the unread rest of the string. -/
def strtoul_digits : List Nat → Nat → Nat × List Nat
  | [], acc => (acc, [])
  | c :: rest, acc =>
    if isxdigit c then strtoul_digits rest (acc * 16 + xdigit_val c) else (acc, c :: rest)

/-- C `strtoul(str, &ptr, 16)` on the bytes of a string: leading white space,
an optional sign, an optional `0x`/`0X` prefix, then hexadecimal digits.  The
result is the value (an `unsigned long` of 64 bits, `ULONG_MAX` on overflow)
and the string `ptr` is left pointing at. -/
def strtoul16 (str : List Nat) : Nat × List Nat :=
  let s1 := str.dropWhile isspace
  let sgn : Bool × List Nat :=
    match s1 with
    | 45 :: t => (true, t)
    | 43 :: t => (false, t)
    | _ => (false, s1)
  let s3 : List Nat :=
    match sgn.2 with
    | 48 :: x :: d :: t => if (x = 120 ∨ x = 88) ∧ isxdigit d = true then d :: t else sgn.2
    | _ => sgn.2
  if isxdigit (s3.headD 0) = true then
    let r := strtoul_digits s3 0
    let v := if r.1 > 18446744073709551615 then 18446744073709551615
             else if sgn.1 then (18446744073709551616 - r.1) % 18446744073709551616 else r.1
    (v, r.2)
  else (0, str)

/-- Digit loop of `atoi`. -/
def atoi_digits : List Nat → Int → Int
  | [], acc => acc
  | c :: rest, acc =>
    if isdigit c then atoi_digits rest (acc * 10 + ((c : Int) - 48)) else acc

/-- C `atoi` on the bytes of a string: `(int) strtol(str, NULL, 10)`, that is
leading white space, an optional sign and decimal digits; a string with no
digits gives 0.  The value saturates to `long` and is truncated to `int`. -/
def atoi (str : List Nat) : Int :=
  let s1 := str.dropWhile isspace
  let sgn : Bool × List Nat :=
    match s1 with
    | 45 :: t => (true, t)
    | 43 :: t => (false, t)
    | _ => (false, s1)
  let v := atoi_digits sgn.2 0
  let w := if sgn.1 then -v else v
  i32 (max (-9223372036854775808) (min 9223372036854775807 w))

/-- The line buffer: a block of bytes addressed by index. -/
abbrev Buf := List Nat

/-- Read of the byte at an index of the buffer (`*p`). -/
def peek (b : Buf) (i : Nat) : Nat := b.getD i 0

/-- Write of one byte of the buffer (`*p = v`). -/
def poke (b : Buf) (i : Nat) (v : Nat) : Buf := b.set i v

/-- The string a pointer into the buffer denotes: the bytes from the index up
to (not including) the first terminator. -/
def cstr (b : Buf) (i : Nat) : List Nat := (b.drop i).takeWhile (fun c => c != 0)

/-- Scan of `strchr`: the bytes from a position on, the index of the first of
them, and the byte looked for. -/
def strchr_from : List Nat → Nat → Nat → Option Nat
  | [], _, _ => none
  | b :: rest, i, c =>
    if b = c then some i else if b = 0 then none else strchr_from rest (i + 1) c

/-- C `strchr(s, c)` for a byte `c` other than the terminator: the index of
the first `c` in the string that starts at index `s`, or `none` for `NULL`. -/
def strchr (b : Buf) (s : Nat) (c : Nat) : Option Nat := strchr_from (b.drop s) s c

/-! ## Colours -/

/-- Source: `pixman_color_t`, four 16-bit channels. -/
structure pixman_color_t where
  red : Nat
  green : Nat
  blue : Nat
  alpha : Nat
  deriving DecidableEq, Repr

/-- Source: `parse_color`, lines 138-139: a leading hash sign (byte 35) is
skipped. -/
def skip_hash (str : List Nat) : List Nat :=
  match str with
  | 35 :: t => t
  | _ => str

/-- Source: `parse_color` (lines 135-161).  The result is the return value
and the colour `clr` points to afterwards. -/
def parse_color (str0 : List Nat) (clr : pixman_color_t) : Int × pixman_color_t :=
  let str := skip_hash str0
  let len := str.length
  if (len ≠ 6 ∧ len ≠ 8) ∨ isxdigit (str.getD 0 0) = false ∨ isxdigit (str.getD 1 0) = false then
    (1, clr)
  else
    let r := strtoul16 str
    let parsed := r.1 % 4294967296
    if r.2.headD 0 ≠ 0 then (1, clr)
    else
      let alpha := if len = 8 then u16 ((parsed &&& 0xff) * 0x101) else 0xffff
      let parsed := if len = 8 then parsed >>> 8 else parsed
      (0, { red := u16 (((parsed >>> 16) &&& 0xff) * 0x101)
            green := u16 (((parsed >>> 8) &&& 0xff) * 0x101)
            blue := u16 (((parsed >>> 0) &&& 0xff) * 0x101)
            alpha := alpha })

/-! ## Font and bar geometry -/

/-- Source: `struct fcft_glyph` of `<fcft/fcft.h>`, the fields `draw_frame`
reads. -/
structure fcft_glyph where
  x : Int
  y : Int
  width : Int
  height : Int
  advance_x : Int
  advance_y : Int
  deriving DecidableEq, Repr

/-- Source: `struct fcft_font` of `<fcft/fcft.h>`: `int ascent`, `int descent`,
with the glyph provider `fcft_rasterize_char_utf32` (`none` for a missing
glyph) and `fcft_kerning` (the x kerning, 0 when there is none). -/
structure fcft_font where
  ascent : Int
  descent : Int
  rasterize : Nat → Option fcft_glyph
  kerning : Nat → Nat → Int

/-- Source: `enum align`. -/
inductive align where
  | ALIGN_C
  | ALIGN_L
  | ALIGN_R
  deriving DecidableEq, Repr

/-- The globals a render reads and does not write: `width`, `height`, `font`,
`bgcolor`, `fgcolor`, `titlealign`, and the decoder `utf8decode` of `utf8.h`,
which maps a state, the codepoint in progress and a byte to the new state and
codepoint. -/
structure Env where
  width : Nat
  height : Nat
  font : fcft_font
  bgcolor : pixman_color_t
  fgcolor : pixman_color_t
  titlealign : align
  utf8decode : Nat → Nat → Nat → Nat × Nat

/-- Source: `layer_surface_configure`, lines 477-478: `stride = width * 4;
bufsize = stride * height;`, both `uint32_t`, the only assignment of
`bufsize` (0 until then, as are `width` and `height`). -/
def bufsize (env : Env) : Nat := (env.width * 4 % 4294967296) * env.height % 4294967296

/-! ## Movement -/

/-- Source: `parse_movement_arg` (lines 163-182).  `atoi(..) * max` is an
`int` times a `uint32_t`, computed and divided as `uint32_t` and converted to
`int` by the `return`; the products with `font->descent` and `font->ascent`
are products of `int`, divided with truncation.  No call site passes `NULL`. -/
def parse_movement_arg (font : fcft_font) : List Nat → Nat → Int
  | 45 :: rest, max => i32 (-(parse_movement_arg font rest max))
  | 119 :: rest, max => i32 ((u32 (atoi rest) * max % 4294967296 / 100 : Nat))
  | 100 :: rest, _ => Int.tdiv (i32 (atoi rest * font.descent)) 100
  | 97 :: rest, _ => Int.tdiv (i32 (atoi rest * font.ascent)) 100
  | str, _ => atoi str

/-- Result of `parse_movement`: return value, buffer, `*xpos`, `*ypos`. -/
structure Moved where
  ret : Int
  text : Buf
  xpos : Nat
  ypos : Nat
  deriving DecidableEq, Repr

/-- The two clamps that end `parse_movement` (lines 219-225). -/
def clamp_pen (env : Env) (text : Buf) (xpos ypos : Nat) : Moved :=
  { ret := 0, text := text,
    xpos := if xpos > env.width then env.width else xpos,
    ypos := if ypos > env.height then env.height else ypos }

/-- Source: `parse_movement` (lines 184-226); `str` is the index of the
argument in the buffer. -/
def parse_movement (env : Env) (text : Buf) (str : Nat) (xpos ypos xoffset yoffset : Nat) :
    Moved :=
  if peek text str = 0 then
    clamp_pen env text xpos
      (u32 ((env.height : Int) + env.font.ascent - env.font.descent) / 2)
  else
    match strchr text str 59 with
    | none =>
      if peek text str = 95 then
        if cstr text str = bytes "_LEFT" then clamp_pen env text 0 ypos
        else if cstr text str = bytes "_RIGHT" then clamp_pen env text env.width ypos
        else if cstr text str = bytes "_CENTER" then clamp_pen env text (env.width / 2) ypos
        else if cstr text str = bytes "_TOP" then clamp_pen env text xpos 0
        else if cstr text str = bytes "_BOTTOM" then clamp_pen env text xpos env.height
        else { ret := 1, text := text, xpos := xpos, ypos := ypos }
      else
        clamp_pen env text
          (u32 (parse_movement_arg env.font (cstr text str) env.width + xoffset)) ypos
    | some yarg =>
      if peek text str = 59 then
        clamp_pen env text xpos
          (u32 (parse_movement_arg env.font (cstr text (str + 1)) env.height + yoffset))
      else
        let text1 := poke text yarg 0
        let y := u32 (parse_movement_arg env.font (cstr text1 (yarg + 1)) env.height + yoffset)
        let x := u32 (parse_movement_arg env.font (cstr text1 str) env.width + xoffset)
        clamp_pen env (poke text1 yarg 59) x y

/-! ## Clickable regions -/

/-- Source: `struct clickable`; `cmd` is `none` for a `NULL` pointer. -/
structure clickable where
  x1 : Nat
  y1 : Nat
  x2 : Nat
  y2 : Nat
  btn : Nat
  cmd : Option (List Nat)
  deriving DecidableEq, Repr

/-- Write of one slot of an array modelled as a total map. -/
def upd {α : Type} (f : Nat → α) (i : Nat) (v : α) : Nat → α :=
  fun j => if j = i then v else f j

/-- Loop of `parse_clickable` (lines 235-237): the button accumulated over the
digits before the first `,`, and the string left at the stop. -/
def parse_clickable_scan : List Nat → Nat → Nat × List Nat
  | [], btn => (btn, [])
  | c :: rest, btn =>
    if c = 44 then (btn, c :: rest)
    else parse_clickable_scan rest (if isdigit c then u8 (btn * 10 + (c - 48)) else btn)

/-- Source: `parse_clickable` (lines 228-249): the return value and the
clickable `c` points to afterwards.  `strdup` is taken to succeed. -/
def parse_clickable (str : List Nat) (c : clickable) (xpos _ypos : Nat) : Int × clickable :=
  let c1 := { c with x1 := xpos, y1 := 0, btn := 0 }
  let r := parse_clickable_scan str c1.btn
  let c2 := { c1 with btn := r.1 }
  match r.2 with
  | [] => (1, c2)
  | _ :: tl => (0, { c2 with cmd := some tl })

/-! ## The command interpreter -/

/-- A line written to `stderr`. -/
inductive Diag where
  | bad_color (arg : List Nat)
  | invalid_absolute (arg : List Nat)
  | invalid_relative (arg : List Nat)
  | bad_click_area (arg : List Nat)
  | unrecognized (cmd : List Nat)
  | malformed_utf8
  deriving DecidableEq, Repr

/-- The fatal exits (`BARF`). -/
inductive Fatal where
  | bad_click_areas
  deriving DecidableEq, Repr

/-- What a render reads and writes: the line buffer, the locals of
`draw_frame` that `handle_cmd` receives by pointer (`textbgcolor`,
`textfgcolor`, `xpos`, `ypos`), the globals `savedx`, `clickies`,
`clickables`, `clickstack`, `clickstacktop`, and the lines written to
`stderr`. -/
structure RenderState where
  text : Buf
  bg : pixman_color_t
  fg : pixman_color_t
  xpos : Nat
  ypos : Nat
  savedx : Nat
  clickies : Nat
  clickables : Nat → clickable
  clickstack : Nat → Nat
  clickstacktop : Nat
  diag : List Diag

/-- Source: `handle_cmd`, the `bg` branch (lines 262-267); `arg` is the index
of the argument in the buffer. -/
def cmd_bg (env : Env) (arg : Nat) (s : RenderState) : RenderState :=
  if peek s.text arg = 0 then { s with bg := env.bgcolor }
  else
    let r := parse_color (cstr s.text arg) s.bg
    if r.1 ≠ 0 then { s with bg := r.2, diag := s.diag ++ [Diag.bad_color (cstr s.text arg)] }
    else { s with bg := r.2 }

/-- Source: `handle_cmd`, the `fg` branch (lines 268-273). -/
def cmd_fg (env : Env) (arg : Nat) (s : RenderState) : RenderState :=
  if peek s.text arg = 0 then { s with fg := env.fgcolor }
  else
    let r := parse_color (cstr s.text arg) s.fg
    if r.1 ≠ 0 then { s with fg := r.2, diag := s.diag ++ [Diag.bad_color (cstr s.text arg)] }
    else { s with fg := r.2 }

/-- Source: `handle_cmd`, the `pa` branch (lines 274-276). -/
def cmd_pa (env : Env) (arg : Nat) (s : RenderState) : RenderState :=
  let m := parse_movement env s.text arg s.xpos s.ypos 0 0
  if m.ret ≠ 0 then
    { s with text := m.text, xpos := m.xpos, ypos := m.ypos,
             diag := s.diag ++ [Diag.invalid_absolute (cstr m.text arg)] }
  else { s with text := m.text, xpos := m.xpos, ypos := m.ypos }

/-- Source: `handle_cmd`, the `p` branch (lines 277-279). -/
def cmd_p (env : Env) (arg : Nat) (s : RenderState) : RenderState :=
  let m := parse_movement env s.text arg s.xpos s.ypos s.xpos s.ypos
  if m.ret ≠ 0 then
    { s with text := m.text, xpos := m.xpos, ypos := m.ypos,
             diag := s.diag ++ [Diag.invalid_relative (cstr m.text arg)] }
  else { s with text := m.text, xpos := m.xpos, ypos := m.ypos }

/-- Source: `handle_cmd`, the `ca` branch with an empty argument
(lines 286-290). -/
def cmd_ca_close (env : Env) (s : RenderState) : Except Fatal RenderState :=
  if s.clickstacktop < 1 then .error Fatal.bad_click_areas
  else
    let top := s.clickstacktop - 1
    let t1 := upd s.clickables (s.clickstack top)
      { s.clickables (s.clickstack top) with x2 := s.xpos }
    let t2 := upd t1 (s.clickstack top) { t1 (s.clickstack top) with y2 := env.height }
    .ok { s with clickstacktop := top, clickables := t2 }

/-- Source: `handle_cmd`, the `ca` branch with an argument (lines 292-298).
The branch has no test of `clickies` against `MAX_CLICKABLES`.  With
`clickies` below it the two stores are stores into the arrays; from
`clickies = MAX_CLICKABLES` on they fall behind the arrays, which the maps
record at the index used, and what such a store overwrites in the process is
not part of the state. -/
def cmd_ca_open (arg : Nat) (s : RenderState) : RenderState :=
  let stack := upd s.clickstack s.clickstacktop s.clickies
  let r := parse_clickable (cstr s.text arg) (s.clickables (stack s.clickstacktop)) s.xpos s.ypos
  let s1 := { s with clickstack := stack, clickies := s.clickies + 1,
                     clickables := upd s.clickables (stack s.clickstacktop) r.2 }
  if r.1 ≠ 0 then { s1 with diag := s.diag ++ [Diag.bad_click_area (cstr s.text arg)] }
  else { s1 with clickstacktop := s.clickstacktop + 1 }

/-- Source: `handle_cmd`, the command chain of lines 262-302, run after the
two terminators are written; `cmd` and `arg` are indices into the buffer. -/
def handle_cmd_dispatch (env : Env) (cmd arg : Nat) (s : RenderState) :
    Except Fatal RenderState :=
  if cstr s.text cmd = bytes "bg" then .ok (cmd_bg env arg s)
  else if cstr s.text cmd = bytes "fg" then .ok (cmd_fg env arg s)
  else if cstr s.text cmd = bytes "pa" then .ok (cmd_pa env arg s)
  else if cstr s.text cmd = bytes "p" then .ok (cmd_p env arg s)
  else if cstr s.text cmd = bytes "sx" then .ok { s with savedx := s.xpos }
  else if cstr s.text cmd = bytes "rx" then .ok { s with xpos := s.savedx }
  else if cstr s.text cmd = bytes "ca" then
    if peek s.text arg = 0 then cmd_ca_close env s
    else .ok (cmd_ca_open arg s)
  else
    .ok { s with diag := s.diag ++ [Diag.unrecognized (cstr s.text cmd)] }

/-- Source: `handle_cmd` (lines 251-308): the returned pointer and the state
afterwards, or the fatal exit. -/
def handle_cmd (env : Env) (cmd : Nat) (s : RenderState) : Except Fatal (Nat × RenderState) :=
  match strchr s.text cmd 40 with
  | none => .ok (cmd, s)
  | some lp =>
    match strchr s.text (lp + 1) 41 with
    | none => .ok (cmd, s)
    | some rp =>
      let s1 := { s with text := poke (poke s.text lp 0) rp 0 }
      match handle_cmd_dispatch env cmd (lp + 1) s1 with
      | .error e => .error e
      | .ok s2 => .ok (rp, { s2 with text := poke (poke s2.text lp 40) rp 41 })

/-! ## Line layout -/

/-- One glyph composited on the foreground layer: the codepoint, the pen
position it was drawn at and the two colour registers at that time. -/
structure Drawn where
  cp : Nat
  x : Nat
  y : Nat
  fg : pixman_color_t
  bg : pixman_color_t
  deriving DecidableEq, Repr

/-- The locals of the loop of `draw_frame` around the state `handle_cmd`
works on, with the bytes given to `utf8decode` and the glyphs drawn, both in
order. -/
structure DrawState where
  r : RenderState
  maxxpos : Nat
  state : Nat
  codepoint : Nat
  lastcp : Nat
  fed : List Nat
  glyphs : List Drawn

/-- How a render or its loop ends: it ran to its end, it took a fatal exit,
`draw_frame` returned `NULL` because it got no buffer, or the fuel of the
model ran out. -/
inductive Run (α : Type) where
  | done (a : α)
  | fatal (e : Fatal)
  | nobuf
  | fuel
  deriving DecidableEq

/-- Source: `draw_frame`, lines 373-421: one byte given to the decoder and,
when it completes a codepoint with a glyph, the glyph drawn and the pen
advanced. -/
def draw_byte (env : Env) (byte : Nat) (d : DrawState) : DrawState :=
  let dec := env.utf8decode d.state d.codepoint byte
  let d1 := { d with state := dec.1, codepoint := dec.2, fed := d.fed ++ [byte] }
  if dec.1 ≠ 0 then d1
  else
    match env.font.rasterize dec.2 with
    | none => d1
    | some glyph =>
      let x_kern : Int := if d.lastcp ≠ 0 then env.font.kerning d.lastcp dec.2 else 0
      let xpos := u32 ((d.r.xpos : Int) + x_kern)
      let drawn : Drawn := { cp := dec.2, x := xpos, y := d.r.ypos, fg := d.r.fg, bg := d.r.bg }
      let xpos1 := u32 ((xpos : Int) + glyph.advance_x)
      let ypos1 := u32 ((d.r.ypos : Int) + glyph.advance_y)
      { d1 with r := { d.r with xpos := xpos1, ypos := ypos1 },
                lastcp := dec.2,
                glyphs := d.glyphs ++ [drawn],
                maxxpos := max d.maxxpos xpos1 }

/-- Source: `draw_frame`, the loop of lines 361-422, from the pointer `p`
on.  Every iteration uses one unit of fuel. -/
def draw_loop (env : Env) : Nat → Nat → DrawState → Run (Nat × DrawState)
  | 0, _, _ => Run.fuel
  | fuel + 1, p, d =>
    if peek d.r.text p = 0 then Run.done (p, d)
    else if d.state = 0 ∧ peek d.r.text p = 94 then
      if peek d.r.text (p + 1) ≠ 94 then
        match handle_cmd env (p + 1) d.r with
        | .error e => Run.fatal e
        | .ok res => draw_loop env fuel (res.1 + 1) { d with r := res.2 }
      else draw_loop env fuel (p + 1 + 1) (draw_byte env (peek d.r.text (p + 1)) d)
    else draw_loop env fuel (p + 1) (draw_byte env (peek d.r.text p) d)

/-- Source: `draw_frame`, the `switch (titlealign)` of lines 429-441:
`width - maxxpos` is a `uint32_t`, halved as such for `ALIGN_C`, and stored in
the `int32_t xdraw`. -/
def xdraw_of (env : Env) (maxxpos : Nat) : Int :=
  match env.titlealign with
  | align.ALIGN_L => 0
  | align.ALIGN_R => i32 (u32 ((env.width : Int) - maxxpos))
  | align.ALIGN_C => i32 ((u32 ((env.width : Int) - maxxpos) / 2 : Nat))

/-- One region after `x1 += xdraw; x2 += xdraw`. -/
def shift_clickable (xdraw : Int) (c : clickable) : clickable :=
  { c with x1 := u32 ((c.x1 : Int) + xdraw), x2 := u32 ((c.x2 : Int) + xdraw) }

/-- Source: `draw_frame`, the loop of lines 444-447 over `i = 0 .. n-1`. -/
def shift_regions (xdraw : Int) (tbl : Nat → clickable) : Nat → (Nat → clickable)
  | 0 => tbl
  | n + 1 =>
    let t := shift_regions xdraw tbl n
    upd t n (shift_clickable xdraw (t n))

/-- What `draw_frame` leaves: the state of the render after the alignment
step, the horizontal placement `xdraw` of the glyph layers, and the locals of the loop. -/
structure Frame where
  r : RenderState
  xdraw : Int
  maxxpos : Nat
  fed : List Nat
  glyphs : List Drawn
  stop : Nat

/-- Source: `draw_frame` (lines 310-467).  The two `return NULL` exits of
lines 314-323 come before any state is touched: `mmap` of a buffer of 0 bytes
fails (a bar of width or height 0, as before the first configure), and the
shared memory file is taken to be granted otherwise.  `prev`
is the state the previous render left; of it the render keeps `savedx`,
`clickables`, `clickstack` and the lines on `stderr`. -/
def draw_frame (env : Env) (text : Buf) (prev : RenderState) : Run Frame :=
  if bufsize env = 0 then Run.nobuf else
  let r0 : RenderState :=
    { prev with text := text, bg := env.bgcolor, fg := env.fgcolor,
                clickies := 0, xpos := 0,
                ypos := u32 ((env.height : Int) + env.font.ascent - env.font.descent) / 2,
                clickstacktop := 0 }
  let d0 : DrawState :=
    { r := r0, maxxpos := 0, state := 0, codepoint := 0, lastcp := 0, fed := [], glyphs := [] }
  match draw_loop env (text.length + 1) 0 d0 with
  | Run.fuel => Run.fuel
  | Run.nobuf => Run.nobuf
  | Run.fatal e => Run.fatal e
  | Run.done res =>
    let d := res.2
    let r1 := if d.state ≠ 0 then { d.r with diag := d.r.diag ++ [Diag.malformed_utf8] } else d.r
    let xdraw := xdraw_of env d.maxxpos
    let r2 := if xdraw ≠ 0 then
        { r1 with clickables := shift_regions xdraw r1.clickables r1.clickies }
      else r1
    Run.done { r := r2, xdraw := xdraw, maxxpos := d.maxxpos, fed := d.fed,
               glyphs := d.glyphs, stop := res.1 }

/-! ## Pointer and scroll state machine -/

/-- Source: `struct input_state`.  The doubles `x`, `y` are held as the
`wl_fixed_t` they were converted from, in units of 1/256 pixel:
`wl_fixed_to_double` is exact, so a comparison of the double with a
`uint32_t` is the comparison of this numerator with 256 times the integer. -/
structure input_state where
  x : Int
  y : Int
  button : Nat
  deriving DecidableEq, Repr

/-- The globals of the pointer handlers: the `input_state` of the listener,
`cur_axis`, `cur_scroll`, `cur_scrollcarry`, the region table, and the
arguments `spawn` was called with, in order (`none` for `NULL`). -/
structure World where
  istate : input_state
  cur_axis : Int
  cur_scroll : Int
  cur_scrollcarry : Int
  clickies : Nat
  clickables : Nat → clickable
  spawned : List (Option (List Nat))

/-- Source: `wl_pointer_axis` (lines 548-566); `axis` is a `uint32_t`,
`value` a `wl_fixed_t` (an `int32_t`). -/
def wl_pointer_axis (axis : Nat) (value : Int) (w : World) : World :=
  let go (w1 : World) : World :=
    let w2 := { w1 with cur_scroll := i32 |value| }
    let w3 := { w2 with cur_scrollcarry := i32 (w2.cur_scrollcarry + w2.cur_scroll) }
    if w3.cur_scrollcarry > SCROLL_THRESHOLD then
      { w3 with cur_scrollcarry := min SCROLL_THRESHOLD (w3.cur_scrollcarry - SCROLL_THRESHOLD),
                istate := { w3.istate with button := if value > 0 then 275 else 276 } }
    else w3
  if (axis : Int) ≠ w.cur_axis then
    if i32 |value| < i32 (4 * w.cur_scroll) then w
    else go { w with cur_axis := axis, cur_scrollcarry := 0 }
  else if decide (value > 0) = decide (w.cur_scroll < 0) then
    go { w with cur_scrollcarry := 0 }
  else go w

/-- Source: `wl_pointer_axis_stop` (lines 574-584). -/
def wl_pointer_axis_stop (axis : Nat) (w : World) : World :=
  if (axis : Int) = w.cur_axis then
    { w with istate := { w.istate with button := 0 }, cur_axis := -1, cur_scroll := 0 }
  else w

/-- The test of lines 623-627 for region `i`. -/
def region_hit (w : World) (i : Nat) : Bool :=
  decide ((w.clickables i).btn = u32 ((w.istate.button : Int) - 271)) &&
  decide (w.istate.x ≥ 256 * ((w.clickables i).x1 : Int)) &&
  decide (w.istate.x ≤ 256 * ((w.clickables i).x2 : Int)) &&
  decide (w.istate.y ≥ 256 * ((w.clickables i).y1 : Int)) &&
  decide (w.istate.y ≤ 256 * ((w.clickables i).y2 : Int))

/-- Source: `wl_pointer_frame`, the loop of lines 622-635 from index `i` on,
with `n` iterations left before `i` reaches `clickies`. -/
def frame_loop (w : World) : Nat → Nat → World
  | 0, _ => w
  | n + 1, i =>
    if region_hit w i then { w with spawned := w.spawned ++ [(w.clickables i).cmd] }
    else frame_loop w n (i + 1)

/-- Source: `wl_pointer_frame` (lines 614-638); the listener data is never
`NULL`. -/
def wl_pointer_frame (w : World) : World :=
  if w.istate.button = 0 then w
  else
    let w1 := frame_loop w w.clickies 0
    { w1 with istate := { w1.istate with button := 0 } }


/-! ## Notions of the specification -/

/-- The colour arguments the specification accepts (§3): after one optional
leading `#`, 6 or 8 characters, all of them hexadecimal digits. -/
def valid_color (str : List Nat) : Bool :=
  (decide ((skip_hash str).length = 6) || decide ((skip_hash str).length = 8)) &&
    (skip_hash str).all isxdigit

/-- Value of the `k`-th pair of hexadecimal digits of a digit string (one
input byte of a colour). -/
def hex_pair (ds : List Nat) (k : Nat) : Nat :=
  xdigit_val (ds.getD (2 * k) 0) * 16 + xdigit_val (ds.getD (2 * k + 1) 0)

/-- The colour a string of 6 or 8 hexadecimal digits denotes according to the
specification (§8): every channel is its input byte times `0x101`, and the
alpha of a 6-digit string is full. -/
def color_of_digits (ds : List Nat) : pixman_color_t :=
  { red := hex_pair ds 0 * 0x101
    green := hex_pair ds 1 * 0x101
    blue := hex_pair ds 2 * 0x101
    alpha := if ds.length = 8 then hex_pair ds 3 * 0x101 else 0xffff }

/-- The decimal numeral of a button number below 1000, as written in the
markup. -/
def decimal (b : Nat) : List Nat :=
  if b < 10 then [48 + b]
  else if b < 100 then [48 + b / 10, 48 + b % 10]
  else [48 + b / 100, 48 + b / 10 % 10, 48 + b % 10]

/-- The number a string of decimal digits denotes. -/
def numeral (ds : List Nat) : Nat :=
  ds.foldl (fun a d => a * 10 + (d - 48)) 0

/-- A region command of a line with the pen x it is met at: `ca(b,c)` for a
button written as the decimal numeral `b` and a command string `c`, or the
closing `ca()`. -/
inductive RegionOp where
  | opn (x : Nat) (b : List Nat) (c : List Nat)
  | cls (x : Nat)
  deriving DecidableEq, Repr

/-- The markup of a region command (what follows the `^`). -/
def RegionOp.text : RegionOp → Buf
  | .opn _ b c => bytes "ca(" ++ (b ++ 44 :: (c ++ [41]))
  | .cls _ => bytes "ca()"

/-- The pen x a region command is met at. -/
def RegionOp.pen : RegionOp → Nat
  | .opn x _ _ => x
  | .cls x => x

/-- A region command that can be written in a line: the button is a string
of decimal digits and the command string holds no `)` and no terminator. -/
def RegionOp.wf : RegionOp → Bool
  | .opn _ b c => b.all isdigit && c.all (fun y => y != 41 && y != 0)
  | .cls _ => true

/-- The number of opening commands among the region commands of a render. -/
def opens : List RegionOp → Nat
  | [] => 0
  | .opn _ _ _ :: rest => opens rest + 1
  | .cls _ :: rest => opens rest

/-- The region commands of a render run through `handle_cmd` one after the
other, each at its pen position. -/
def run_region_ops (env : Env) : RenderState → List RegionOp → Except Fatal RenderState
  | s, [] => .ok s
  | s, op :: rest =>
    match handle_cmd env 0 { s with text := op.text, xpos := op.pen } with
    | .error e => .error e
    | .ok res => run_region_ops env res.2 rest

/-- The two fatal conditions of the region table in the specification (§7):
closing with no open region, and exceeding the capacity of the table. -/
inductive RegionStop where
  | unbalanced
  | full
  deriving DecidableEq, Repr

/-- The region stack in the words of the specification (§3, §4.5): the number
of regions opened so far and the indices of the regions opened and not yet
closed, the most recently opened first.  An opening command takes the next
index and pushes it, and is fatal when the table of `MAX_CLICKABLES` slots is
full; a closing command pops, and is fatal when nothing is open. -/
def open_regions : Nat × List Nat → List RegionOp → Except RegionStop (Nat × List Nat)
  | st, [] => .ok st
  | st, .opn _ _ _ :: rest =>
    if MAX_CLICKABLES ≤ st.1 then .error RegionStop.full
    else open_regions (st.1 + 1, st.1 :: st.2) rest
  | st, .cls _ :: rest =>
    match st.2 with
    | [] => .error RegionStop.unbalanced
    | _ :: below => open_regions (st.1, below) rest

/-- The region stack of the code agrees with the stack of the specification:
`clickies` regions were opened, and `clickstack[0 .. clickstacktop)` holds the
open regions from the oldest to the most recently opened. -/
def stack_agrees (s : RenderState) (st : Nat × List Nat) : Prop :=
  s.clickies = st.1 ∧ s.clickstacktop = st.2.length ∧
    ∀ k, k < st.2.length → s.clickstack k = st.2.reverse.getD k 0

/-- A state in the middle of a render: region 0 was opened at pen 5 and is
on the region stack. -/
def used_open_state : RenderState :=
  { text := [], bg := ⟨0x1111, 0x1111, 0x1111, 0xffff⟩,
    fg := ⟨0xb3b3, 0xb3b3, 0xb3b3, 0xffff⟩, xpos := 20, ypos := 10, savedx := 0,
    clickies := 1,
    clickables := fun i => if i = 0 then ⟨5, 0, 0, 0, 1, some (bytes "xterm")⟩
                           else ⟨0, 0, 0, 0, 0, none⟩,
    clickstack := fun _ => 0, clickstacktop := 1, diag := [] }

/-- Region `i` matches the held button and the pointer position, in the words
of the specification (§4.5 `find`): its button is `button - 271` over the
integers and its rectangle contains the point. -/
def region_matches (w : World) (i : Nat) : Prop :=
  ((w.clickables i).btn : Int) = (w.istate.button : Int) - 271 ∧
  256 * ((w.clickables i).x1 : Int) ≤ w.istate.x ∧ w.istate.x ≤ 256 * ((w.clickables i).x2 : Int) ∧
  256 * ((w.clickables i).y1 : Int) ≤ w.istate.y ∧ w.istate.y ≤ 256 * ((w.clickables i).y2 : Int)

/-! ## Concrete inputs -/

/-- A font whose every glyph advances the pen by 10 pixels, without kerning. -/
def demo_font : fcft_font :=
  { ascent := 10, descent := 2,
    rasterize := fun _ => some { x := 0, y := 0, width := 8, height := 10,
                                 advance_x := 10, advance_y := 0 },
    kerning := fun _ _ => 0 }

/-- A configured bar of 100 by 12 pixels (a buffer of 4800 bytes) with the
default colours of the source and a decoder for lines of ASCII bytes (every
byte is a codepoint). -/
def demo_env (a : align) : Env :=
  { width := 100, height := 12, font := demo_font,
    bgcolor := ⟨0x1111, 0x1111, 0x1111, 0xffff⟩,
    fgcolor := ⟨0xb3b3, 0xb3b3, 0xb3b3, 0xffff⟩,
    titlealign := a, utf8decode := fun _ _ byte => (0, byte) }

/-- The state at the start of a process (all statics zero) around a buffer
and a pen x. -/
def demo_state (text : Buf) (xpos : Nat) : RenderState :=
  { text := text, bg := ⟨0x1111, 0x1111, 0x1111, 0xffff⟩,
    fg := ⟨0xb3b3, 0xb3b3, 0xb3b3, 0xffff⟩, xpos := xpos, ypos := 10, savedx := 0,
    clickies := 0, clickables := fun _ => ⟨0, 0, 0, 0, 0, none⟩, clickstack := fun _ => 0,
    clickstacktop := 0, diag := [] }

/-- A line of one glyph followed by 65 opening commands `^ca(1,x)`. -/
def line65 : Buf := bytes "a" ++ (List.replicate 65 (bytes "^ca(1,x)")).flatten

/-- A line of 20 glyphs inside one region: 200 pixels on the 100 pixel bar. -/
def line_wide : Buf := bytes "^ca(1,x)abcdefghijklmnopqrst^ca()"

/-- What a finished render left: `xdraw`, `maxxpos`, `clickies`,
`clickstacktop`, `clickstack[i]` and `clickables[i]`. -/
def frame_view (r : Run Frame) (i : Nat) : Option (Int × Nat × Nat × Nat × Nat × clickable) :=
  match r with
  | Run.done f =>
    some (f.xdraw, f.maxxpos, f.r.clickies, f.r.clickstacktop, f.r.clickstack i, f.r.clickables i)
  | _ => none

/-- What a call of `handle_cmd` left: the returned pointer and the pen. -/
def pen_view (r : Except Fatal (Nat × RenderState)) : Option (Nat × Nat × Nat) :=
  match r with
  | .ok res => some (res.1, res.2.xpos, res.2.ypos)
  | .error _ => none

/-- The pointer globals at the start of a process, with an empty region
table. -/
def initial_world : World :=
  { istate := ⟨0, 0, 0⟩, cur_axis := -1, cur_scroll := 0, cur_scrollcarry := 0,
    clickies := 0, clickables := fun _ => ⟨0, 0, 0, 0, 0, none⟩, spawned := [] }

/-- A run of axis events on one axis. -/
def axis_events (axis : Nat) (values : List Int) (w : World) : World :=
  values.foldl (fun w1 v => wl_pointer_axis axis v w1) w

/-- The synthesized button and the carry. -/
def scroll_view (w : World) : Nat × Int := (w.istate.button, w.cur_scrollcarry)

/-- Two overlapping regions for button 1 (`272 - 271`) under the pointer at
pixel (5, 3), with button 272 held. -/
def demo_world : World :=
  { istate := ⟨1280, 768, 272⟩, cur_axis := -1, cur_scroll := 0, cur_scrollcarry := 0,
    clickies := 2,
    clickables := fun i =>
      if i = 0 then ⟨0, 0, 10, 12, 1, some (bytes "first")⟩
      else if i = 1 then ⟨0, 0, 20, 12, 1, some (bytes "second")⟩
      else ⟨0, 0, 0, 0, 0, none⟩,
    spawned := [] }


/-! ## Renders in sequence and pointer events -/

/-- The state left by rendering lines one after the other, each render
starting from the state the render before it left (a render that got no
buffer leaves the state as it was); `none` when one of the renders took the
fatal exit. -/
def renders (env : Env) : RenderState → List Buf → Option RenderState
  | s, [] => some s
  | s, l :: rest =>
    match draw_frame env l s with
    | Run.done f => renders env f.r rest
    | Run.nobuf => renders env s rest
    | _ => none

/-- Source: the events of `wl_pointer_listener` that touch the scroll state. -/
inductive PointerEvent where
  | axis (axis : Nat) (value : Int)
  | axis_stop (axis : Nat)
  | frame
  deriving DecidableEq, Repr

/-- The handler of an event. -/
def PointerEvent.apply : PointerEvent → World → World
  | .axis a v, w => wl_pointer_axis a v w
  | .axis_stop a, w => wl_pointer_axis_stop a w
  | .frame, w => wl_pointer_frame w

/-- The events handled one after the other. -/
def run_events (w : World) (evs : List PointerEvent) : World :=
  evs.foldl (fun w1 e => e.apply w1) w

/-- The value of an axis event is at most `2^31 - 1 - 400` in magnitude. -/
def PointerEvent.bounded : PointerEvent → Bool
  | .axis _ v => decide (|v| ≤ 2147483647 - 400)
  | _ => true

/-- A line with one closed region for button 1. -/
def line_first : Buf := bytes "^ca(1,first)ab^ca()"

/-- The bytes a render gave to the decoder and the index its scan stopped
at. -/
def scan_view (r : Run Frame) : Option (List Nat × Nat) :=
  match r with
  | Run.done f => some (f.fed, f.stop)
  | _ => none

/-- The colours, pen and region counts a call of `handle_cmd` left, with the
returned pointer. -/
structure CmdView where
  ret : Nat
  bg : pixman_color_t
  fg : pixman_color_t
  xpos : Nat
  ypos : Nat
  clickies : Nat
  clickstacktop : Nat
  deriving DecidableEq, Repr

/-- View of the result of `handle_cmd`; `none` for a fatal exit. -/
def state_view (r : Except Fatal (Nat × RenderState)) : Option CmdView :=
  match r with
  | .ok res =>
    some { ret := res.1, bg := res.2.bg, fg := res.2.fg, xpos := res.2.xpos, ypos := res.2.ypos,
           clickies := res.2.clickies, clickstacktop := res.2.clickstacktop }
  | .error _ => none

theorem poke_poke (b : Buf) (i v w : Nat) : poke (poke b i v) i w = poke b i w := by
  simp [poke]

theorem poke_comm (b : Buf) (i j v w : Nat) (h : i ≠ j) :
    poke (poke b i v) j w = poke (poke b j w) i v := by
  simp [poke, List.set_comm _ _ _ h]

theorem poke_peek (b : Buf) (i : Nat) : poke b i (peek b i) = b := by
  unfold poke peek
  induction b generalizing i with
  | nil => simp
  | cons x xs ih =>
    cases i with
    | zero => simp
    | succ n => simpa using ih n

theorem strchr_from_some (l : List Nat) (i c j : Nat) (h : strchr_from l i c = some j) :
    i ≤ j ∧ j - i < l.length ∧ l.getD (j - i) 0 = c := by
  induction l generalizing i with
  | nil => simp [strchr_from] at h
  | cons x xs ih =>
    unfold strchr_from at h
    split at h
    · simp at h; subst h; simp; assumption
    · split at h
      · simp at h
      · obtain ⟨h1, h2, h3⟩ := ih (i + 1) h
        have : j - i = (j - (i + 1)) + 1 := by omega
        refine ⟨by omega, ?_, ?_⟩
        · simp; omega
        · rw [this]; simpa using h3

theorem strchr_some (b : Buf) (s c j : Nat) (h : strchr b s c = some j) :
    s ≤ j ∧ j < b.length ∧ peek b j = c := by
  unfold strchr at h
  obtain ⟨h1, h2, h3⟩ := strchr_from_some _ _ _ _ h
  simp at h2
  refine ⟨h1, by omega, ?_⟩
  unfold peek
  have : j = s + (j - s) := by omega
  rw [this]
  simpa [List.getD_eq_getElem?_getD, List.getElem?_drop] using h3


theorem clamp_pen_text (env : Env) (text : Buf) (x y : Nat) :
    (clamp_pen env text x y).text = text := rfl

theorem parse_movement_text (env : Env) (text : Buf) (str xpos ypos xoffset yoffset : Nat) :
    (parse_movement env text str xpos ypos xoffset yoffset).text = text := by
  unfold parse_movement
  split
  · rfl
  · split
    · split
      · repeat (first | rfl | split)
      · rfl
    · rename_i yarg hy
      split
      · rfl
      · have h := (strchr_some _ _ _ _ hy).2.2
        simp only [clamp_pen_text, poke_poke]
        rw [← h]
        exact poke_peek _ _

theorem cmd_bg_text (env : Env) (arg : Nat) (s : RenderState) :
    (cmd_bg env arg s).text = s.text := by
  unfold cmd_bg; simp only; split
  · rfl
  · split <;> rfl

theorem cmd_fg_text (env : Env) (arg : Nat) (s : RenderState) :
    (cmd_fg env arg s).text = s.text := by
  unfold cmd_fg; simp only; split
  · rfl
  · split <;> rfl

theorem cmd_pa_text (env : Env) (arg : Nat) (s : RenderState) :
    (cmd_pa env arg s).text = s.text := by
  unfold cmd_pa; simp only; split <;> exact parse_movement_text _ _ _ _ _ _ _

theorem cmd_p_text (env : Env) (arg : Nat) (s : RenderState) :
    (cmd_p env arg s).text = s.text := by
  unfold cmd_p; simp only; split <;> exact parse_movement_text _ _ _ _ _ _ _

theorem cmd_ca_open_text (arg : Nat) (s : RenderState) :
    (cmd_ca_open arg s).text = s.text := by
  unfold cmd_ca_open; simp only; split <;> rfl

theorem cmd_ca_close_text (env : Env) (s s2 : RenderState)
    (h : cmd_ca_close env s = .ok s2) : s2.text = s.text := by
  unfold cmd_ca_close at h
  split at h
  · cases h
  · cases h; rfl

theorem handle_cmd_dispatch_text (env : Env) (cmd arg : Nat) (s s2 : RenderState)
    (h : handle_cmd_dispatch env cmd arg s = .ok s2) : s2.text = s.text := by
  unfold handle_cmd_dispatch at h
  split at h
  · cases h; exact cmd_bg_text _ _ _
  split at h
  · cases h; exact cmd_fg_text _ _ _
  split at h
  · cases h; exact cmd_pa_text _ _ _
  split at h
  · cases h; exact cmd_p_text _ _ _
  split at h
  · cases h; rfl
  split at h
  · cases h; rfl
  split at h
  · split at h
    · exact cmd_ca_close_text _ _ _ h
    · cases h; exact cmd_ca_open_text _ _
  · cases h; rfl

theorem handle_cmd_text (env : Env) (cmd : Nat) (s : RenderState) (res : Nat × RenderState)
    (h : handle_cmd env cmd s = .ok res) : res.2.text = s.text := by
  unfold handle_cmd at h
  split at h
  · simp only [Except.ok.injEq] at h; subst h; rfl
  · rename_i lp hl
    split at h
    · simp only [Except.ok.injEq] at h; subst h; rfl
    · rename_i rp hr
      simp only at h
      split at h
      · exact absurd h (by simp)
      · rename_i s2 hd
        simp only [Except.ok.injEq] at h
        subst h
        have ht := handle_cmd_dispatch_text _ _ _ _ _ hd
        simp only at ht ⊢
        rw [ht]
        have h1 := strchr_some _ _ _ _ hl
        have h2 := strchr_some _ _ _ _ hr
        have hne : lp ≠ rp := by omega
        rw [poke_comm _ lp rp 0 0 hne, poke_poke, poke_comm _ rp lp 0 40 hne.symm, poke_poke]
        have e1 : poke s.text lp 40 = s.text := by
          have := poke_peek s.text lp
          rwa [h1.2.2] at this
        rw [e1]
        have := poke_peek s.text rp
        have h3 : peek s.text rp = 41 := h2.2.2
        rwa [h3] at this

/-! ## A command inside a line -/

theorem strchr_from_append (l1 l2 : List Nat) (i c : Nat) (h : ∀ x ∈ l1, x ≠ c ∧ x ≠ 0) :
    strchr_from (l1 ++ c :: l2) i c = some (i + l1.length) := by
  induction l1 generalizing i with
  | nil => simp [strchr_from]
  | cons x xs ih =>
    have hx := h x (by simp)
    have := ih (i + 1) (fun y hy => h y (by simp [hy]))
    simp [strchr_from, hx.1, hx.2, this]
    omega

theorem strchr_at (pre mid post : List Nat) (c : Nat) (h : ∀ x ∈ mid, x ≠ c ∧ x ≠ 0) :
    strchr (pre ++ (mid ++ c :: post)) pre.length c = some (pre.length + mid.length) := by
  unfold strchr
  rw [List.drop_left]
  exact strchr_from_append _ _ _ _ h

theorem strchr_at_none (pre mid post : List Nat) (c : Nat) (hc : 0 ≠ c)
    (h : ∀ x ∈ mid, x ≠ c ∧ x ≠ 0) :
    strchr (pre ++ (mid ++ 0 :: post)) pre.length c = none := by
  unfold strchr
  rw [List.drop_left]
  generalize pre.length = i
  induction mid generalizing i with
  | nil =>
    simp [strchr_from, hc]
  | cons x xs ih =>
    have hx := h x (by simp)
    have := ih (fun y hy => h y (by simp [hy])) (i + 1)
    simp [strchr_from, hx.1, hx.2, this]

theorem poke_at (pre post : List Nat) (a v : Nat) :
    poke (pre ++ a :: post) pre.length v = pre ++ v :: post := by
  unfold poke
  induction pre with
  | nil => rfl
  | cons x xs ih => simp [ih]

theorem peek_at (pre post : List Nat) (a : Nat) : peek (pre ++ a :: post) pre.length = a := by
  unfold peek
  induction pre with
  | nil => rfl
  | cons x xs ih => simpa [List.getD_eq_getElem?_getD] using ih

theorem peek_at_end (pre : List Nat) : peek pre pre.length = 0 := by
  unfold peek
  simp

theorem cstr_at (pre mid post : List Nat) (h : ∀ x ∈ mid, x ≠ 0) :
    cstr (pre ++ (mid ++ 0 :: post)) pre.length = mid := by
  unfold cstr
  rw [List.drop_left]
  induction mid with
  | nil => simp
  | cons x xs ih =>
    have hx := h x (by simp)
    have := ih (fun y hy => h y (by simp [hy]))
    simp [List.takeWhile_cons, hx, this]

theorem handle_cmd_parsed (env : Env) (s : RenderState) (pre name arg post : List Nat)
    (ht : s.text = pre ++ (name ++ 40 :: (arg ++ 41 :: post)))
    (hn : ∀ x ∈ name, x ≠ 40 ∧ x ≠ 0) (ha : ∀ x ∈ arg, x ≠ 41 ∧ x ≠ 0) :
    handle_cmd env pre.length s =
      match handle_cmd_dispatch env pre.length (pre.length + name.length + 1)
          { s with text := pre ++ (name ++ 0 :: (arg ++ 0 :: post)) } with
      | .error e => .error e
      | .ok s2 => .ok (pre.length + name.length + 1 + arg.length, { s2 with text := s.text }) := by
  have hlp : strchr s.text pre.length 40 = some (pre.length + name.length) := by
    rw [ht]; exact strchr_at _ _ _ _ hn
  have hrp : strchr s.text (pre.length + name.length + 1) 41
      = some (pre.length + name.length + 1 + arg.length) := by
    have e : s.text = (pre ++ name ++ [40]) ++ (arg ++ 41 :: post) := by simp [ht]
    have := strchr_at (pre ++ name ++ [40]) arg post 41 ha
    rw [← e] at this
    simpa using this
  have hz : poke (poke s.text (pre.length + name.length) 0)
      (pre.length + name.length + 1 + arg.length) 0
      = pre ++ (name ++ 0 :: (arg ++ 0 :: post)) := by
    have e1 : s.text = (pre ++ name) ++ 40 :: (arg ++ 41 :: post) := by simp [ht]
    have p1 := poke_at (pre ++ name) (arg ++ 41 :: post) 40 0
    rw [← e1] at p1
    simp only [List.length_append] at p1
    rw [p1]
    have e2 : pre ++ name ++ 0 :: (arg ++ 41 :: post) = (pre ++ name ++ [0] ++ arg) ++ 41 :: post := by
      simp
    have p2 := poke_at (pre ++ name ++ [0] ++ arg) post 41 0
    rw [← e2] at p2
    simp only [List.length_append, List.length_singleton] at p2
    rw [p2]
    simp
  have key := handle_cmd_text env pre.length s
  unfold handle_cmd at key ⊢
  rw [hlp] at key ⊢
  simp only at key ⊢
  rw [hrp] at key ⊢
  simp only at key ⊢
  rw [hz] at key ⊢
  cases hd : handle_cmd_dispatch env pre.length (pre.length + name.length + 1)
      { s with text := pre ++ (name ++ 0 :: (arg ++ 0 :: post)) } with
  | error e => rfl
  | ok s2 =>
    rw [hd] at key
    have := key _ rfl
    simp only at this ⊢
    rw [this]

theorem zeroed_name (pre name arg post : List Nat) (hn : ∀ x ∈ name, x ≠ 40 ∧ x ≠ 0) :
    cstr (pre ++ (name ++ 0 :: (arg ++ 0 :: post))) pre.length = name :=
  cstr_at _ _ _ (fun x hx => (hn x hx).2)

theorem zeroed_arg (pre name arg post : List Nat) (ha : ∀ x ∈ arg, x ≠ 41 ∧ x ≠ 0) :
    cstr (pre ++ (name ++ 0 :: (arg ++ 0 :: post))) (pre.length + name.length + 1) = arg := by
  have e : pre ++ (name ++ 0 :: (arg ++ 0 :: post)) = (pre ++ name ++ [0]) ++ (arg ++ 0 :: post) := by
    simp
  have := cstr_at (pre ++ name ++ [0]) arg post (fun x hx => (ha x hx).2)
  rw [← e] at this
  simpa using this

theorem zeroed_peek (pre name arg post : List Nat) :
    peek (pre ++ (name ++ 0 :: (arg ++ 0 :: post))) (pre.length + name.length + 1)
      = arg.headD 0 := by
  have e : pre ++ (name ++ 0 :: (arg ++ 0 :: post)) = (pre ++ name ++ [0]) ++ (arg ++ 0 :: post) := by
    simp
  rw [e]
  cases arg with
  | nil =>
    have := peek_at (pre ++ name ++ [0]) post 0
    simpa using this
  | cons a as =>
    have := peek_at (pre ++ name ++ [0]) (as ++ 0 :: post) a
    simpa using this

/-! ## Colour parsing -/

theorem isxdigit_iff (c : Nat) :
    isxdigit c = true ↔ (48 ≤ c ∧ c ≤ 57) ∨ (65 ≤ c ∧ c ≤ 70) ∨ (97 ≤ c ∧ c ≤ 102) := by
  simp [isxdigit, isdigit, or_assoc]

theorem isxdigit_false_iff (c : Nat) :
    isxdigit c = false ↔ ¬ ((48 ≤ c ∧ c ≤ 57) ∨ (65 ≤ c ∧ c ≤ 70) ∨ (97 ≤ c ∧ c ≤ 102)) := by
  rw [← isxdigit_iff]; simp

theorem xdigit_val_lt (c : Nat) (h : isxdigit c = true) : xdigit_val c < 16 := by
  rw [isxdigit_iff] at h
  unfold xdigit_val isdigit
  split
  · rename_i h1; simp at h1; omega
  · rename_i h1; simp at h1; split <;> omega

theorem strtoul_digits_rest (l : List Nat) (acc : Nat) :
    (strtoul_digits l acc).2 = l.dropWhile isxdigit := by
  induction l generalizing acc with
  | nil => rfl
  | cons c rest ih =>
    unfold strtoul_digits
    by_cases h : isxdigit c = true
    · simp [h, ih, List.dropWhile_cons]
    · simp [h, List.dropWhile_cons]

theorem strtoul16_of_xdigits (l : List Nat) (h0 : isxdigit (l.getD 0 0) = true)
    (h1 : isxdigit (l.getD 1 0) = true) :
    strtoul16 l =
      (if (strtoul_digits l 0).1 > 18446744073709551615 then 18446744073709551615
        else (strtoul_digits l 0).1, (strtoul_digits l 0).2) := by
  match l, h0, h1 with
  | [], h0, _ => simp [isxdigit, isdigit] at h0
  | [a], _, h1 => simp [isxdigit, isdigit] at h1
  | a :: b :: rest, h0, h1 =>
    simp only [List.getD_cons_zero, List.getD_cons_succ] at h0 h1
    have ha := (isxdigit_iff a).1 h0
    have hb := (isxdigit_iff b).1 h1
    have hsp : isspace a = false := by
      simp [isspace]; omega
    have e1 : List.dropWhile isspace (a :: b :: rest) = a :: b :: rest := by
      simp [List.dropWhile_cons, hsp]
    unfold strtoul16
    simp only [e1]
    have e2 : (match a :: b :: rest with
        | 45 :: t => (true, t)
        | 43 :: t => (false, t)
        | _ => (false, a :: b :: rest)) = (false, a :: b :: rest) := by
      split
      · rename_i heq; simp at heq; omega
      · rename_i heq; simp at heq; omega
      · rfl
    rw [e2]
    simp only
    have e3 : (match a :: b :: rest with
        | 48 :: x :: d :: t => if (x = 120 ∨ x = 88) ∧ isxdigit d = true then d :: t else a :: b :: rest
        | _ => a :: b :: rest) = a :: b :: rest := by
      split
      · rename_i heq
        simp at heq
        have : ¬ (b = 120 ∨ b = 88) := by omega
        obtain ⟨_, hx, _⟩ := heq
        subst hx
        simp [this]
      · rfl
    rw [e3]
    simp [h0]

theorem and_255 (x : Nat) : x &&& 255 = x % 256 := by
  have := Nat.and_pow_two_sub_one_eq_mod x 8
  simpa using this

theorem skip_hash_of_xdigit (a : Nat) (l : List Nat) (h : isxdigit a = true) :
    skip_hash (a :: l) = a :: l := by
  have := (isxdigit_iff a).1 h
  unfold skip_hash
  split
  · rename_i heq; simp at heq; omega
  · rfl

theorem skip_hash_hash (l : List Nat) : skip_hash (35 :: l) = l := rfl

theorem u16_byte (x : Nat) (h : x < 256) : u16 (x * 257) = x * 257 := by
  unfold u16; omega

theorem value6 (a b c d e f : Nat) (ha : a < 16) (hb : b < 16) (hc : c < 16) (hd : d < 16)
    (he : e < 16) (hf : f < 16) :
    ¬ (((((a * 16 + b) * 16 + c) * 16 + d) * 16 + e) * 16 + f > 18446744073709551615) ∧
    (((((a * 16 + b) * 16 + c) * 16 + d) * 16 + e) * 16 + f) % 4294967296 / 65536 % 256
      = a * 16 + b ∧
    (((((a * 16 + b) * 16 + c) * 16 + d) * 16 + e) * 16 + f) % 4294967296 / 256 % 256
      = c * 16 + d ∧
    (((((a * 16 + b) * 16 + c) * 16 + d) * 16 + e) * 16 + f) % 4294967296 % 256
      = e * 16 + f := by
  refine ⟨by omega, by omega, by omega, by omega⟩

theorem value8 (a b c d e f g h : Nat) (ha : a < 16) (hb : b < 16) (hc : c < 16) (hd : d < 16)
    (he : e < 16) (hf : f < 16) (hg : g < 16) (hh : h < 16) :
    ¬ (((((((a * 16 + b) * 16 + c) * 16 + d) * 16 + e) * 16 + f) * 16 + g) * 16 + h
        > 18446744073709551615) ∧
    (((((((a * 16 + b) * 16 + c) * 16 + d) * 16 + e) * 16 + f) * 16 + g) * 16 + h)
        % 4294967296 / 256 / 65536 % 256 = a * 16 + b ∧
    (((((((a * 16 + b) * 16 + c) * 16 + d) * 16 + e) * 16 + f) * 16 + g) * 16 + h)
        % 4294967296 / 256 / 256 % 256 = c * 16 + d ∧
    (((((((a * 16 + b) * 16 + c) * 16 + d) * 16 + e) * 16 + f) * 16 + g) * 16 + h)
        % 4294967296 / 256 % 256 = e * 16 + f ∧
    (((((((a * 16 + b) * 16 + c) * 16 + d) * 16 + e) * 16 + f) * 16 + g) * 16 + h)
        % 4294967296 % 256 = g * 16 + h := by
  refine ⟨by omega, by omega, by omega, by omega, by omega⟩

theorem parse_color_digits6 (a b c d e f : Nat) (clr : pixman_color_t)
    (ha : isxdigit a = true) (hb : isxdigit b = true) (hc : isxdigit c = true)
    (hd : isxdigit d = true) (he : isxdigit e = true) (hf : isxdigit f = true) :
    parse_color [a, b, c, d, e, f] clr = (0, color_of_digits [a, b, c, d, e, f]) := by
  have va := xdigit_val_lt a ha
  have vb := xdigit_val_lt b hb
  have vc := xdigit_val_lt c hc
  have vd := xdigit_val_lt d hd
  have ve := xdigit_val_lt e he
  have vf := xdigit_val_lt f hf
  obtain ⟨k0, k1, k2, k3⟩ := value6 _ _ _ _ _ _ va vb vc vd ve vf
  unfold parse_color
  rw [skip_hash_of_xdigit a _ ha]
  have hs := strtoul16_of_xdigits [a, b, c, d, e, f] (by simpa using ha) (by simpa using hb)
  simp only [strtoul_digits, ha, hb, hc, hd, he, hf, if_true, Nat.zero_mul, Nat.zero_add,
    if_neg k0] at hs
  simp only [hs]
  simp [ha, hb, color_of_digits, hex_pair, and_255, Nat.shiftRight_eq_div_pow, k1, k2, k3]
  refine ⟨u16_byte _ (by omega), u16_byte _ (by omega), u16_byte _ (by omega)⟩

theorem parse_color_digits8 (a b c d e f g h : Nat) (clr : pixman_color_t)
    (ha : isxdigit a = true) (hb : isxdigit b = true) (hc : isxdigit c = true)
    (hd : isxdigit d = true) (he : isxdigit e = true) (hf : isxdigit f = true)
    (hg : isxdigit g = true) (hh : isxdigit h = true) :
    parse_color [a, b, c, d, e, f, g, h] clr = (0, color_of_digits [a, b, c, d, e, f, g, h]) := by
  have va := xdigit_val_lt a ha
  have vb := xdigit_val_lt b hb
  have vc := xdigit_val_lt c hc
  have vd := xdigit_val_lt d hd
  have ve := xdigit_val_lt e he
  have vf := xdigit_val_lt f hf
  have vg := xdigit_val_lt g hg
  have vh := xdigit_val_lt h hh
  obtain ⟨k0, k1, k2, k3, k4⟩ := value8 _ _ _ _ _ _ _ _ va vb vc vd ve vf vg vh
  unfold parse_color
  rw [skip_hash_of_xdigit a _ ha]
  have hs := strtoul16_of_xdigits [a, b, c, d, e, f, g, h] (by simpa using ha) (by simpa using hb)
  simp only [strtoul_digits, ha, hb, hc, hd, he, hf, hg, hh, if_true, Nat.zero_mul, Nat.zero_add,
    if_neg k0] at hs
  simp only [hs]
  simp [ha, hb, color_of_digits, hex_pair, and_255, Nat.shiftRight_eq_div_pow, k1, k2, k3, k4]
  refine ⟨u16_byte _ (by omega), u16_byte _ (by omega), u16_byte _ (by omega),
    u16_byte _ (by omega)⟩

theorem all_getD (p : Nat → Bool) (l : List Nat) (i : Nat) (h : l.all p = true)
    (hi : i < l.length) : p (l.getD i 0) = true := by
  rw [List.all_eq_true] at h
  apply h
  rw [List.getD_eq_getElem _ _ hi]
  exact List.getElem_mem hi

theorem skip_hash_mem (str : List Nat) (c : Nat) (h : c ∈ skip_hash str) : c ∈ str := by
  unfold skip_hash at h
  split at h
  · simp [h]
  · exact h

theorem parse_color_cases (str : List Nat) (clr : pixman_color_t) (hz : ∀ c ∈ str, c ≠ 0) :
    ((parse_color str clr).1 = 1 ∧ (parse_color str clr).2 = clr ∧ valid_color str = false) ∨
    ((parse_color str clr).1 = 0 ∧ valid_color str = true) := by
  have hb : ∀ c ∈ skip_hash str, c ≠ 0 := fun c hc => hz c (skip_hash_mem _ _ hc)
  unfold parse_color valid_color
  generalize skip_hash str = body at hb
  simp only
  by_cases hc : (body.length ≠ 6 ∧ body.length ≠ 8) ∨ isxdigit (body.getD 0 0) = false ∨
      isxdigit (body.getD 1 0) = false
  · rw [if_pos hc]
    left
    refine ⟨rfl, rfl, ?_⟩
    by_contra hv
    simp only [Bool.not_eq_false, Bool.and_eq_true, Bool.or_eq_true, decide_eq_true_eq] at hv
    obtain ⟨hl, ha⟩ := hv
    have h0 := all_getD _ _ 0 ha (by omega)
    have h1 := all_getD _ _ 1 ha (by omega)
    rcases hc with hc | hc | hc
    · omega
    · rw [h0] at hc; exact absurd hc (by simp)
    · rw [h1] at hc; exact absurd hc (by simp)
  · rw [if_neg hc]
    simp only [not_or, not_and_or, Bool.not_eq_false, ne_eq, Decidable.not_not] at hc
    obtain ⟨hl, h0, h1⟩ := hc
    rw [strtoul16_of_xdigits body h0 h1]
    simp only [strtoul_digits_rest]
    by_cases ha : body.all isxdigit = true
    · have hnil : List.dropWhile isxdigit body = [] := by
        rw [List.dropWhile_eq_nil_iff]
        exact List.all_eq_true.1 ha
      right
      simp [hnil, ha]
      omega
    · left
      have hne : List.dropWhile isxdigit body ≠ [] := by
        intro hnil
        rw [List.dropWhile_eq_nil_iff] at hnil
        exact ha (List.all_eq_true.2 hnil)
      obtain ⟨x, xs, hx⟩ := List.exists_cons_of_ne_nil hne
      have hmem : x ∈ body := by
        have : x ∈ List.dropWhile isxdigit body := by simp [hx]
        exact (List.dropWhile_sublist _).subset this
      have hx0 := hb x hmem
      simp [hx, hx0, ha]

/-! ## Region commands -/

theorem bytes_bg : bytes "bg" = [98, 103] := by decide
theorem bytes_fg : bytes "fg" = [102, 103] := by decide
theorem bytes_pa : bytes "pa" = [112, 97] := by decide
theorem bytes_p : bytes "p" = [112] := by decide
theorem bytes_sx : bytes "sx" = [115, 120] := by decide
theorem bytes_rx : bytes "rx" = [114, 120] := by decide
theorem bytes_ca : bytes "ca" = [99, 97] := by decide
theorem bytes_ca_lp : bytes "ca(" = [99, 97, 40] := by decide
theorem bytes_ca_close : bytes "ca()" = [99, 97, 40, 41] := by decide

theorem upd_upd {α : Type} (f : Nat → α) (i : Nat) (v w : α) :
    upd (upd f i v) i w = upd f i w := by
  funext j; unfold upd; split <;> rfl

theorem upd_same {α : Type} (f : Nat → α) (i : Nat) (v : α) : upd f i v i = v := by
  simp [upd]

theorem upd_other {α : Type} (f : Nat → α) (i j : Nat) (v : α) (h : j ≠ i) :
    upd f i v j = f j := by
  simp [upd, h]

theorem dispatch_ca (env : Env) (cmd arg : Nat) (s : RenderState)
    (h : cstr s.text cmd = [99, 97]) :
    handle_cmd_dispatch env cmd arg s =
      if peek s.text arg = 0 then cmd_ca_close env s else .ok (cmd_ca_open arg s) := by
  unfold handle_cmd_dispatch
  simp [h, bytes_bg, bytes_fg, bytes_pa, bytes_p, bytes_sx, bytes_rx, bytes_ca]

theorem scan_digit (d acc : Nat) (rest : List Nat) (h1 : 48 ≤ d) (h2 : d ≤ 57) :
    parse_clickable_scan (d :: rest) acc = parse_clickable_scan rest (u8 (acc * 10 + (d - 48))) := by
  have hd : isdigit d = true := by simp [isdigit]; omega
  have hne : d ≠ 44 := by omega
  rw [parse_clickable_scan]
  simp [hd, hne]

theorem scan_comma (acc : Nat) (rest : List Nat) :
    parse_clickable_scan (44 :: rest) acc = (acc, 44 :: rest) := by
  rw [parse_clickable_scan]
  simp

theorem isdigit_iff (d : Nat) : isdigit d = true ↔ 48 ≤ d ∧ d ≤ 57 := by
  simp [isdigit]

theorem foldl_digits_mod (ds : List Nat) (x : Nat) :
    ds.foldl (fun a d => a * 10 + (d - 48)) (x % 256) % 256
      = ds.foldl (fun a d => a * 10 + (d - 48)) x % 256 := by
  induction ds generalizing x with
  | nil => simp
  | cons d t ih =>
    simp only [List.foldl_cons]
    rw [← ih (x % 256 * 10 + (d - 48)), ← ih (x * 10 + (d - 48))]
    have : (x % 256 * 10 + (d - 48)) % 256 = (x * 10 + (d - 48)) % 256 := by omega
    rw [this]

theorem scan_digits (ds c : List Nat) (acc : Nat) (hacc : acc < 256)
    (hd : ∀ d ∈ ds, isdigit d = true) :
    parse_clickable_scan (ds ++ 44 :: c) acc
      = (ds.foldl (fun a d => a * 10 + (d - 48)) acc % 256, 44 :: c) := by
  induction ds generalizing acc with
  | nil =>
    simp only [List.nil_append, List.foldl_nil, scan_comma]
    rw [Nat.mod_eq_of_lt hacc]
  | cons d t ih =>
    have h := (isdigit_iff d).1 (hd d (by simp))
    simp only [List.cons_append, List.foldl_cons]
    rw [scan_digit _ _ _ h.1 h.2, ih _ (by unfold u8; omega) (fun x hx => hd x (by simp [hx]))]
    unfold u8
    rw [foldl_digits_mod]

theorem scan_numeral (ds c : List Nat) (hd : ∀ d ∈ ds, isdigit d = true) :
    parse_clickable_scan (ds ++ 44 :: c) 0 = (numeral ds % 256, 44 :: c) :=
  scan_digits ds c 0 (by omega) hd

theorem handle_cmd_open (env : Env) (s : RenderState) (pre post b c : List Nat)
    (hb : ∀ d ∈ b, isdigit d = true) (hc : ∀ x ∈ c, x ≠ 41 ∧ x ≠ 0)
    (ht : s.text = pre ++ ((RegionOp.opn s.xpos b c).text ++ post)) :
    handle_cmd env pre.length s =
      .ok (pre.length + ((RegionOp.opn s.xpos b c).text.length - 1),
        { s with clickstack := upd s.clickstack s.clickstacktop s.clickies,
                 clickies := s.clickies + 1,
                 clickables := upd s.clickables s.clickies
                   { s.clickables s.clickies with
                     x1 := s.xpos, y1 := 0, btn := numeral b % 256, cmd := some c },
                 clickstacktop := s.clickstacktop + 1 }) := by
  have ha : ∀ x ∈ b ++ 44 :: c, x ≠ 41 ∧ x ≠ 0 := by
    intro x hx
    simp only [List.mem_append, List.mem_cons] at hx
    rcases hx with hx | hx | hx
    · have := (isdigit_iff x).1 (hb x hx); omega
    · omega
    · exact hc x hx
  have hhead : (b ++ 44 :: c).headD 0 ≠ 0 := by
    cases b with
    | nil => simp
    | cons d t => exact (ha d (by simp)).2
  have hn : ∀ x ∈ [99, 97], x ≠ 40 ∧ x ≠ 0 := by
    intro x hx; simp at hx; omega
  have ht2 : s.text = pre ++ ([99, 97] ++ 40 :: ((b ++ 44 :: c) ++ 41 :: post)) := by
    rw [ht]; simp [RegionOp.text, bytes_ca_lp]
  rw [handle_cmd_parsed env s pre [99, 97] (b ++ 44 :: c) post ht2 hn ha]
  rw [dispatch_ca _ _ _ _ (zeroed_name pre [99, 97] _ post hn)]
  simp only [zeroed_peek, if_neg hhead]
  unfold cmd_ca_open
  simp only [zeroed_arg pre [99, 97] _ post ha]
  simp [parse_clickable, scan_numeral b c hb, upd, RegionOp.text, bytes_ca_lp]
  omega

theorem handle_cmd_close (env : Env) (s : RenderState) (pre post : List Nat)
    (ht : s.text = pre ++ (bytes "ca()" ++ post)) :
    handle_cmd env pre.length s =
      if s.clickstacktop < 1 then .error Fatal.bad_click_areas
      else .ok (pre.length + 3,
        { s with clickstacktop := s.clickstacktop - 1,
                 clickables := upd s.clickables (s.clickstack (s.clickstacktop - 1))
                   { s.clickables (s.clickstack (s.clickstacktop - 1)) with
                     x2 := s.xpos, y2 := env.height } }) := by
  have hn : ∀ x ∈ [99, 97], x ≠ 40 ∧ x ≠ 0 := by
    intro x hx; simp at hx; omega
  have ht2 : s.text = pre ++ ([99, 97] ++ 40 :: ([] ++ 41 :: post)) := by
    rw [ht]; simp [bytes_ca_close]
  rw [handle_cmd_parsed env s pre [99, 97] [] post ht2 hn (by simp)]
  rw [dispatch_ca _ _ _ _ (zeroed_name pre [99, 97] _ post hn)]
  simp only [zeroed_peek, List.headD_nil, if_true]
  unfold cmd_ca_close
  by_cases h : s.clickstacktop < 1
  · simp [h]
  · simp [h, upd_upd, upd_same]

/-! ## The region stack is a stack -/

theorem run_region_ops_append (env : Env) (s : RenderState) (ops : List RegionOp)
    (op : RegionOp) :
    run_region_ops env s (ops ++ [op]) =
      match run_region_ops env s ops with
      | .error e => .error e
      | .ok s1 => run_region_ops env s1 [op] := by
  induction ops generalizing s with
  | nil => simp [run_region_ops]
  | cons o rest ih =>
    simp only [List.cons_append, run_region_ops]
    cases handle_cmd env 0 { s with text := o.text, xpos := o.pen } with
    | error e => rfl
    | ok res => exact ih res.2

theorem step_opn (env : Env) (s : RenderState) (x : Nat) (b c : List Nat)
    (hwf : (RegionOp.opn x b c).wf = true) :
    ∃ e, handle_cmd env 0 { s with text := (RegionOp.opn x b c).text, xpos := x } =
      .ok (e, { s with
        text := (RegionOp.opn x b c).text, xpos := x,
        clickstack := upd s.clickstack s.clickstacktop s.clickies,
        clickies := s.clickies + 1,
        clickables := upd s.clickables s.clickies
          { s.clickables s.clickies with
            x1 := x, y1 := 0, btn := numeral b % 256, cmd := some c },
        clickstacktop := s.clickstacktop + 1 }) := by
  simp only [RegionOp.wf, Bool.and_eq_true, List.all_eq_true,
    bne_iff_ne, ne_eq] at hwf
  have h := handle_cmd_open env { s with text := (RegionOp.opn x b c).text, xpos := x }
    [] [] b c hwf.1 (fun y hy => hwf.2 y hy) (by simp [RegionOp.text])
  exact ⟨_, h⟩

theorem step_cls (env : Env) (s : RenderState) (x : Nat) :
    handle_cmd env 0 { s with text := (RegionOp.cls x).text, xpos := x } =
      if s.clickstacktop < 1 then .error Fatal.bad_click_areas
      else .ok (3, { s with
        text := (RegionOp.cls x).text, xpos := x,
        clickstacktop := s.clickstacktop - 1,
        clickables := upd s.clickables (s.clickstack (s.clickstacktop - 1))
          { s.clickables (s.clickstack (s.clickstacktop - 1)) with
            x2 := x, y2 := env.height } }) := by
  have h := handle_cmd_close env { s with text := (RegionOp.cls x).text, xpos := x } [] []
    (by simp [RegionOp.text])
  simpa using h

theorem run_refines (env : Env) (ops : List RegionOp) (s : RenderState) (st : Nat × List Nat)
    (hwf : ∀ op ∈ ops, op.wf = true) (hR : stack_agrees s st)
    (hin : ∀ i ∈ st.2, i < st.1) (hcap : st.1 + opens ops ≤ MAX_CLICKABLES) :
    match open_regions st ops with
    | .error RegionStop.full => False
    | .error RegionStop.unbalanced => run_region_ops env s ops = .error Fatal.bad_click_areas
    | .ok st1 => ∃ s1, run_region_ops env s ops = .ok s1 ∧ stack_agrees s1 st1 ∧
        (∀ i ∈ st1.2, i < st1.1) ∧ st1.1 ≤ MAX_CLICKABLES := by
  induction ops generalizing s st with
  | nil =>
    simp only [opens, Nat.add_zero] at hcap
    exact ⟨s, rfl, hR, hin, hcap⟩
  | cons op rest ih =>
    have hrest : ∀ o ∈ rest, o.wf = true := fun o ho => hwf o (by simp [ho])
    obtain ⟨h1, h2, h3⟩ := hR
    cases op with
    | opn x b c =>
      obtain ⟨e, he⟩ := step_opn env s x b c (hwf _ (by simp))
      simp only [opens] at hcap
      have hnf : ¬ MAX_CLICKABLES ≤ st.1 := by omega
      simp only [open_regions, run_region_ops, RegionOp.pen, he, if_neg hnf]
      apply ih _ _ hrest
      · refine ⟨by simp [h1], by simp [h2], ?_⟩
        intro k hk
        simp only [List.length_cons] at hk
        simp only [List.reverse_cons]
        by_cases hkk : k = st.2.length
        · subst hkk
          rw [← h2]
          simp [upd_same, h1, h2, List.getD_eq_getElem?_getD]
        · have hlt : k < st.2.length := by omega
          rw [upd_other _ _ _ _ (by omega)]
          rw [h3 k hlt]
          simp [List.getD_eq_getElem?_getD, List.getElem?_append_left, hlt]
      · intro i hi
        simp only [List.mem_cons] at hi
        rcases hi with hi | hi
        · simp only; omega
        · have := hin i hi
          simp only; omega
      · simp only; omega
    | cls x =>
      simp only [opens] at hcap
      simp only [open_regions, run_region_ops, RegionOp.pen, step_cls]
      cases hst : st.2 with
      | nil =>
        have : s.clickstacktop < 1 := by rw [h2, hst]; simp
        simp [this]
      | cons i below =>
        have : ¬ s.clickstacktop < 1 := by rw [h2, hst]; simp
        simp only [this, if_false]
        apply ih _ _ hrest
        · refine ⟨h1, by simp [h2, hst], ?_⟩
          intro k hk
          simp only at hk ⊢
          have := h3 k (by rw [hst]; simp; omega)
          rw [this, hst]
          simp [List.getD_eq_getElem?_getD, List.getElem?_append_left, hk]
        · intro j hj
          exact hin j (by rw [hst]; simp [hj])
        · exact hcap

theorem stack_top (s : RenderState) (n i : Nat) (below : List Nat)
    (h : stack_agrees s (n, i :: below)) :
    ¬ s.clickstacktop < 1 ∧ s.clickstack (s.clickstacktop - 1) = i := by
  obtain ⟨_, h2, h3⟩ := h
  simp only [List.length_cons] at h2 h3
  refine ⟨by omega, ?_⟩
  rw [h2, h3 _ (by omega)]
  simp [List.getD_eq_getElem?_getD]

/-! ## Frame dispatch -/

theorem region_hit_iff (w : World) (i : Nat) (hb : w.istate.button < 4294967296)
    (hbtn : (w.clickables i).btn < 256) :
    region_hit w i = true ↔ region_matches w i := by
  unfold region_hit region_matches u32
  simp only [Bool.and_eq_true, decide_eq_true_eq, ge_iff_le, and_assoc]
  constructor
  · rintro ⟨h1, h2⟩
    refine ⟨?_, h2⟩
    omega
  · rintro ⟨h1, h2⟩
    refine ⟨?_, h2⟩
    omega

theorem frame_loop_spec (w : World) (n i : Nat) :
    (∃ k, i ≤ k ∧ k < i + n ∧ region_hit w k = true ∧ (∀ j, i ≤ j → j < k → region_hit w j = false) ∧
        frame_loop w n i = { w with spawned := w.spawned ++ [(w.clickables k).cmd] }) ∨
    ((∀ j, i ≤ j → j < i + n → region_hit w j = false) ∧ frame_loop w n i = w) := by
  induction n generalizing i with
  | zero =>
    right
    exact ⟨fun j h1 h2 => by omega, rfl⟩
  | succ n ih =>
    unfold frame_loop
    by_cases h : region_hit w i = true
    · left
      exact ⟨i, le_refl _, by omega, h, fun j h1 h2 => by omega, by simp [h]⟩
    · simp only [h, Bool.false_eq_true, if_false]
      have hf : region_hit w i = false := by simpa using h
      rcases ih (i + 1) with ⟨k, h1, h2, h3, h4, h5⟩ | ⟨h1, h2⟩
      · left
        refine ⟨k, by omega, by omega, h3, ?_, h5⟩
        intro j hj1 hj2
        by_cases hji : j = i
        · subst hji; exact hf
        · exact h4 j (by omega) hj2
      · right
        refine ⟨?_, h2⟩
        intro j hj1 hj2
        by_cases hji : j = i
        · subst hji; exact hf
        · exact h1 j (by omega) (by omega)


/-! ## What a render takes over from the renders before it -/

theorem i32_small (x : Int) (h0 : 0 ≤ x) (h1 : x ≤ 2147483647) : i32 x = x := by
  unfold i32; omega

theorem scroll_go_inv (w : World) (value n : Int) (hn : n = |value|) (h0 : 0 ≤ n)
    (h1 : n ≤ 2147483647 - 400) (hc0 : 0 ≤ w.cur_scrollcarry)
    (hc1 : w.cur_scrollcarry ≤ SCROLL_THRESHOLD) :
    let w2 := { w with cur_scroll := i32 |value| }
    let w3 := { w2 with cur_scrollcarry := i32 (w2.cur_scrollcarry + w2.cur_scroll) }
    let w4 := if w3.cur_scrollcarry > SCROLL_THRESHOLD then
        { w3 with
          cur_scrollcarry := min SCROLL_THRESHOLD (w3.cur_scrollcarry - SCROLL_THRESHOLD),
          istate := { w3.istate with button := if value > 0 then 275 else 276 } }
      else w3
    0 ≤ w4.cur_scrollcarry ∧ w4.cur_scrollcarry ≤ SCROLL_THRESHOLD ∧ 0 ≤ w4.cur_scroll := by
  unfold SCROLL_THRESHOLD at *
  simp only [← hn]
  rw [i32_small n h0 (by omega), i32_small (w.cur_scrollcarry + n) (by omega) (by omega)]
  split
  · simp only
    refine ⟨?_, ?_, h0⟩
    · rw [le_min_iff]; constructor <;> omega
    · exact min_le_left _ _
  · simp only
    refine ⟨by omega, by omega, h0⟩

theorem wl_pointer_axis_inv (axis : Nat) (value : Int) (w : World)
    (hv : |value| ≤ 2147483647 - 400)
    (h : 0 ≤ w.cur_scrollcarry ∧ w.cur_scrollcarry ≤ SCROLL_THRESHOLD ∧ 0 ≤ w.cur_scroll) :
    0 ≤ (wl_pointer_axis axis value w).cur_scrollcarry ∧
    (wl_pointer_axis axis value w).cur_scrollcarry ≤ SCROLL_THRESHOLD ∧
    0 ≤ (wl_pointer_axis axis value w).cur_scroll := by
  have hth : (0 : Int) ≤ SCROLL_THRESHOLD := by unfold SCROLL_THRESHOLD; omega
  unfold wl_pointer_axis
  simp only
  split
  · split
    · exact h
    · exact scroll_go_inv { w with cur_axis := axis, cur_scrollcarry := 0 } value |value| rfl
        (abs_nonneg _) hv (le_refl _) hth
  · split
    · exact scroll_go_inv { w with cur_scrollcarry := 0 } value |value| rfl
        (abs_nonneg _) hv (le_refl _) hth
    · exact scroll_go_inv w value |value| rfl (abs_nonneg _) hv h.1 h.2.1

theorem frame_loop_scroll (w : World) (n i : Nat) :
    (frame_loop w n i).cur_scrollcarry = w.cur_scrollcarry ∧
    (frame_loop w n i).cur_scroll = w.cur_scroll := by
  induction n generalizing i with
  | zero => exact ⟨rfl, rfl⟩
  | succ n ih =>
    unfold frame_loop
    split
    · exact ⟨rfl, rfl⟩
    · exact ih (i + 1)

theorem event_inv (e : PointerEvent) (w : World) (hb : e.bounded = true)
    (h : 0 ≤ w.cur_scrollcarry ∧ w.cur_scrollcarry ≤ SCROLL_THRESHOLD ∧ 0 ≤ w.cur_scroll) :
    0 ≤ (e.apply w).cur_scrollcarry ∧ (e.apply w).cur_scrollcarry ≤ SCROLL_THRESHOLD ∧
    0 ≤ (e.apply w).cur_scroll := by
  cases e with
  | axis a v =>
    simp only [PointerEvent.bounded, decide_eq_true_eq] at hb
    exact wl_pointer_axis_inv a v w hb h
  | axis_stop a =>
    simp only [PointerEvent.apply, wl_pointer_axis_stop]
    split
    · exact ⟨h.1, h.2.1, le_refl _⟩
    · exact h
  | frame =>
    simp only [PointerEvent.apply, wl_pointer_frame]
    split
    · exact h
    · have := frame_loop_scroll w w.clickies 0
      simp only [this.1, this.2]
      exact h

/-! ## The claims -/

set_option maxRecDepth 100000 in
/-- C1, where the code departs from the claim: a line that opens 65 regions
is rendered to its end.  The 65th `ca(1,x)` is not fatal; it stores into
`clickstack[64]` and `clickables[64]`, one slot past the `MAX_CLICKABLES`
(64) slots of the two arrays, and leaves `clickies = clickstacktop = 65`. -/
theorem overflowing_open_is_written :
    MAX_CLICKABLES = 64 ∧
    (demo_state [] 0).clickstack 64 = 0 ∧
    (demo_state [] 0).clickables 64 = ⟨0, 0, 0, 0, 0, none⟩ ∧
    frame_view (draw_frame (demo_env align.ALIGN_L) line65 (demo_state [] 0)) 64
      = some (0, 10, 65, 65, 64, ⟨10, 0, 0, 0, 1, some (bytes "x")⟩) := by
  decide

/-- C2 fails as stated for a button that does not fit the `uint8_t` field:
`ca(300,x)` at pen 0 followed by `ca()` at pen 20 leaves the one entry
`(0, 0, 20, 12, 44, x)`; the button stored is `300 mod 256 = 44`, not 300. -/
theorem wide_button_is_truncated :
    numeral (bytes "300") = 300 ∧
    frame_view (draw_frame (demo_env align.ALIGN_L) (bytes "^ca(300,x)ab^ca()" ++ [0])
        (demo_state [] 0)) 0
      = some (0, 20, 1, 0, 0, ⟨0, 0, 20, 12, 44, some (bytes "x")⟩) ∧
    (44 : Nat) ≠ 300 := by
  refine ⟨by decide, by decide, by decide⟩

/-- C2 as amended, for renders that stay within the `MAX_CLICKABLES` slots of
the region table.  An empty `ca()` is fatal when no region is open;
otherwise it sets `x2` to the pen x and `y2` to the bar height on the entry
`clickstack` holds on top and changes nothing else.  After any run of at most
`MAX_CLICKABLES` opening commands, with any closing commands between them,
from the start of a render, that entry is the region opened most recently
and not yet closed (the top of the stack of the specification).  And
`ca(b,c)` at pen `a` followed by `ca()` at pen `p` leaves exactly one entry,
`(a, 0, p, height, b mod 256, c)`, the button being cut to the `uint8_t`
field, after which a second `ca()` is fatal. -/
theorem region_open_close_lifo (env : Env) (s : RenderState)
    (pre post pre2 post2 b c : List Nat) (a p : Nat) (ops : List RegionOp)
    (hb : ∀ d ∈ b, isdigit d = true) (hc : ∀ y ∈ c, y ≠ 41 ∧ y ≠ 0)
    (hwf : ∀ op ∈ ops, op.wf = true) (hcap : opens ops ≤ MAX_CLICKABLES) :
    (s.clickstacktop = 0 →
      handle_cmd env pre2.length { s with text := pre2 ++ (bytes "ca()" ++ post2), xpos := p }
        = .error Fatal.bad_click_areas) ∧
    (1 ≤ s.clickstacktop → s.clickstacktop ≤ MAX_CLICKABLES →
      s.clickstack (s.clickstacktop - 1) < MAX_CLICKABLES →
      handle_cmd env pre2.length { s with text := pre2 ++ (bytes "ca()" ++ post2), xpos := p }
        = .ok (pre2.length + 3, { s with
            text := pre2 ++ (bytes "ca()" ++ post2), xpos := p,
            clickstacktop := s.clickstacktop - 1,
            clickables := upd s.clickables (s.clickstack (s.clickstacktop - 1))
              { s.clickables (s.clickstack (s.clickstacktop - 1)) with
                x2 := p, y2 := env.height } })) ∧
    (s.clickies = 0 → s.clickstacktop = 0 →
      match open_regions (0, []) ops with
      | .error RegionStop.full => False
      | .error RegionStop.unbalanced =>
        run_region_ops env s ops = .error Fatal.bad_click_areas
      | .ok (n, []) =>
        ∃ s1, run_region_ops env s ops = .ok s1 ∧ s1.clickies = n ∧ n ≤ MAX_CLICKABLES ∧
          run_region_ops env s (ops ++ [RegionOp.cls p]) = .error Fatal.bad_click_areas
      | .ok (n, i :: _) =>
        ∃ s1 s2, run_region_ops env s ops = .ok s1 ∧ s1.clickies = n ∧
          i < n ∧ n ≤ MAX_CLICKABLES ∧
          run_region_ops env s (ops ++ [RegionOp.cls p]) = .ok s2 ∧ s2.clickies = n ∧
          s2.clickables = upd s1.clickables i { s1.clickables i with x2 := p, y2 := env.height }) ∧
    (s.clickies = 0 → s.clickstacktop = 0 →
      ∃ e1 e2 s1 s2,
        handle_cmd env pre.length
          { s with text := pre ++ ((RegionOp.opn a b c).text ++ post), xpos := a } = .ok (e1, s1) ∧
        handle_cmd env pre2.length
          { s1 with text := pre2 ++ (bytes "ca()" ++ post2), xpos := p } = .ok (e2, s2) ∧
        s2.clickies = 1 ∧ s2.clickstacktop = 0 ∧
        s2.clickables 0
          = { x1 := a, y1 := 0, x2 := p, y2 := env.height, btn := numeral b % 256,
              cmd := some c } ∧
        (∀ i, i ≠ 0 → s2.clickables i = s.clickables i) ∧
        handle_cmd env pre2.length { s2 with text := pre2 ++ (bytes "ca()" ++ post2) }
          = .error Fatal.bad_click_areas) := by
  refine ⟨?_, ?_, ?_, ?_⟩
  · intro h0
    rw [handle_cmd_close env _ pre2 post2 rfl]
    simp [h0]
  · intro h1 _ _
    rw [handle_cmd_close env _ pre2 post2 rfl]
    have : ¬ s.clickstacktop < 1 := by omega
    simp only [this, if_false]
  · intro h0 h1
    have hR : stack_agrees s (0, []) := ⟨h0, h1, fun k hk => by simp at hk⟩
    have href := run_refines env ops s (0, []) hwf hR (by simp) (by simpa using hcap)
    rw [run_region_ops_append]
    cases hst : open_regions (0, []) ops with
    | error stop =>
      rw [hst] at href
      cases stop with
      | full => exact href
      | unbalanced => exact href
    | ok st =>
      rw [hst] at href
      obtain ⟨s1, hrun, hag, hin, hle⟩ := href
      obtain ⟨n, stack⟩ := st
      cases stack with
      | nil =>
        refine ⟨s1, hrun, hag.1, hle, ?_⟩
        have htop : s1.clickstacktop < 1 := by rw [hag.2.1]; simp
        simp [hrun, run_region_ops, RegionOp.pen, step_cls, htop]
      | cons i below =>
        have ht := stack_top s1 n i below hag
        refine ⟨s1, { s1 with
          text := (RegionOp.cls p).text, xpos := p,
          clickstacktop := s1.clickstacktop - 1,
          clickables := upd s1.clickables i
            { s1.clickables i with x2 := p, y2 := env.height } }, hrun, hag.1,
          hin i (by simp), hle, ?_, hag.1, rfl⟩
        simp [hrun, run_region_ops, RegionOp.pen, step_cls, ht.1, ht.2]
  · intro h0 h1
    obtain ⟨t0, bg0, fg0, x0, y0, sx0, n0, tbl, stk, top0, dg⟩ := s
    simp only at h0 h1
    subst h0 h1
    have hopen := handle_cmd_open env
      { text := pre ++ ((RegionOp.opn a b c).text ++ post), bg := bg0, fg := fg0, xpos := a,
        ypos := y0, savedx := sx0, clickies := 0, clickables := tbl, clickstack := stk,
        clickstacktop := 0, diag := dg }
      pre post b c hb hc rfl
    have hclose := handle_cmd_close env
      { text := pre2 ++ (bytes "ca()" ++ post2), bg := bg0, fg := fg0, xpos := p,
        ypos := y0, savedx := sx0, clickies := 0 + 1,
        clickables := upd tbl 0
          { tbl 0 with x1 := a, y1 := 0, btn := numeral b % 256, cmd := some c },
        clickstack := upd stk 0 0, clickstacktop := 0 + 1, diag := dg } pre2 post2 rfl
    rw [if_neg (by simp)] at hclose
    refine ⟨_, _, _, _, hopen, hclose, rfl, rfl, by simp [upd], ?_, ?_⟩
    · intro i hi
      simp [upd, hi]
    · rw [handle_cmd_close env _ pre2 post2 rfl]
      simp

/-- Instance of the amended C2: `ca(1,xterm)` at pen 5 and `ca()` at pen 25
on the bar of height 12; a close after `ca(1,a) ca(2,b) ca()` that falls on
region 0; and the close of a state with region 0 open. -/
theorem region_open_close_lifo_witness :
    (∀ d ∈ bytes "1", isdigit d = true) ∧ (∀ y ∈ bytes "xterm", y ≠ 41 ∧ y ≠ 0) ∧
    (∀ op ∈ [RegionOp.opn 0 (bytes "1") (bytes "a"), RegionOp.opn 10 (bytes "2") (bytes "b"),
             RegionOp.cls 20], op.wf = true) ∧
    opens [RegionOp.opn 0 (bytes "1") (bytes "a"), RegionOp.opn 10 (bytes "2") (bytes "b"),
           RegionOp.cls 20] ≤ MAX_CLICKABLES ∧
    (∃ s1 s2,
      run_region_ops (demo_env align.ALIGN_L) (demo_state [] 0)
        [RegionOp.opn 0 (bytes "1") (bytes "a"), RegionOp.opn 10 (bytes "2") (bytes "b"),
         RegionOp.cls 20] = .ok s1 ∧
      s1.clickies = 2 ∧ 0 < 2 ∧ 2 ≤ MAX_CLICKABLES ∧
      run_region_ops (demo_env align.ALIGN_L) (demo_state [] 0)
        ([RegionOp.opn 0 (bytes "1") (bytes "a"), RegionOp.opn 10 (bytes "2") (bytes "b"),
          RegionOp.cls 20] ++ [RegionOp.cls 25]) = .ok s2 ∧
      s2.clickies = 2 ∧
      s2.clickables = upd s1.clickables 0
        { s1.clickables 0 with x2 := 25, y2 := (demo_env align.ALIGN_L).height }) ∧
    (∃ e1 e2 s1 s2,
      handle_cmd (demo_env align.ALIGN_L) (bytes "ab^").length
        { demo_state [] 0 with
          text := bytes "ab^" ++ ((RegionOp.opn 5 (bytes "1") (bytes "xterm")).text
            ++ bytes "cd^ca()"),
          xpos := 5 } = .ok (e1, s1) ∧
      handle_cmd (demo_env align.ALIGN_L) (bytes "ab^ca(1,xterm)cd^").length
        { s1 with text := bytes "ab^ca(1,xterm)cd^" ++ (bytes "ca()" ++ []), xpos := 25 }
          = .ok (e2, s2) ∧
      s2.clickies = 1 ∧ s2.clickstacktop = 0 ∧
      s2.clickables 0
        = { x1 := 5, y1 := 0, x2 := 25, y2 := (demo_env align.ALIGN_L).height,
            btn := numeral (bytes "1") % 256, cmd := some (bytes "xterm") } ∧
      (∀ i, i ≠ 0 → s2.clickables i = (demo_state [] 0).clickables i) ∧
      handle_cmd (demo_env align.ALIGN_L) (bytes "ab^ca(1,xterm)cd^").length
        { s2 with text := bytes "ab^ca(1,xterm)cd^" ++ (bytes "ca()" ++ []) }
          = .error Fatal.bad_click_areas) ∧
    handle_cmd (demo_env align.ALIGN_L) (bytes "ab^ca(1,xterm)cd^").length
        { used_open_state with
          text := bytes "ab^ca(1,xterm)cd^" ++ (bytes "ca()" ++ []), xpos := 25 }
      = .ok ((bytes "ab^ca(1,xterm)cd^").length + 3, { used_open_state with
          text := bytes "ab^ca(1,xterm)cd^" ++ (bytes "ca()" ++ []), xpos := 25,
          clickstacktop := used_open_state.clickstacktop - 1,
          clickables := upd used_open_state.clickables
            (used_open_state.clickstack (used_open_state.clickstacktop - 1))
            { used_open_state.clickables
                (used_open_state.clickstack (used_open_state.clickstacktop - 1)) with
              x2 := 25, y2 := (demo_env align.ALIGN_L).height } }) :=
  have h := region_open_close_lifo (demo_env align.ALIGN_L) (demo_state [] 0)
    (bytes "ab^") (bytes "cd^ca()") (bytes "ab^ca(1,xterm)cd^") [] (bytes "1") (bytes "xterm")
    5 25
    [RegionOp.opn 0 (bytes "1") (bytes "a"), RegionOp.opn 10 (bytes "2") (bytes "b"),
     RegionOp.cls 20]
    (by decide) (by decide) (by decide) (by decide)
  have h2 := region_open_close_lifo (demo_env align.ALIGN_L) used_open_state
    (bytes "ab^") (bytes "cd^ca()") (bytes "ab^ca(1,xterm)cd^") [] (bytes "1") (bytes "xterm")
    5 25 [] (by decide) (by decide) (by decide) (by decide)
  ⟨by decide, by decide, by decide, by decide, h.2.2.1 rfl rfl, h.2.2.2 rfl rfl,
    h2.2.1 (by decide) (by decide) (by decide)⟩

/-- C3, where the code departs from the claim: from the initial state five
axis events of value -100 on axis 0 synthesize no button; the carry is reset
by every non-positive event, because the reversal test compares with
`cur_scroll`, a magnitude that is never negative, and stays 100.  The same
five events with value +100 give button 275 and carry 100 on the fifth. -/
theorem negative_scroll_synthesizes_nothing :
    (List.range 6).map
        (fun k => scroll_view (axis_events 0 (List.replicate k (-100)) initial_world))
      = [(0, 0), (0, 100), (0, 100), (0, 100), (0, 100), (0, 100)] ∧
    (List.range 6).map
        (fun k => scroll_view (axis_events 0 (List.replicate k 100) initial_world))
      = [(0, 0), (0, 100), (0, 200), (0, 300), (0, 400), (275, 100)] := by
  decide

/-- C4: with no button held `wl_pointer_frame` changes nothing; with a button
held it clears the button, leaves the region table and the scroll state as
they are, and calls `spawn` once, with the command of the lowest-index region
below `clickies` that matches the button and contains the pointer, or not at
all when no region matches. -/
theorem wl_pointer_frame_dispatch (w : World) (hb : w.istate.button < 4294967296)
    (hbtn : ∀ i, (w.clickables i).btn < 256) :
    (w.istate.button = 0 → wl_pointer_frame w = w) ∧
    (w.istate.button ≠ 0 →
      (∃ i, i < w.clickies ∧ region_matches w i ∧ (∀ j, j < i → ¬ region_matches w j) ∧
        wl_pointer_frame w =
          { w with spawned := w.spawned ++ [(w.clickables i).cmd],
                   istate := { w.istate with button := 0 } }) ∨
      ((∀ i, i < w.clickies → ¬ region_matches w i) ∧
        wl_pointer_frame w = { w with istate := { w.istate with button := 0 } })) := by
  constructor
  · intro h
    simp [wl_pointer_frame, h]
  · intro h
    unfold wl_pointer_frame
    rw [if_neg h]
    rcases frame_loop_spec w w.clickies 0 with ⟨k, _, h2, h3, h4, h5⟩ | ⟨h1, h2⟩
    · left
      refine ⟨k, by omega, (region_hit_iff w k hb (hbtn k)).1 h3, ?_, ?_⟩
      · intro j hj hm
        have := (region_hit_iff w j hb (hbtn j)).2 hm
        rw [h4 j (Nat.zero_le _) hj] at this
        exact absurd this (by simp)
      · simp only [h5]
    · right
      refine ⟨?_, ?_⟩
      · intro i hi hm
        have := (region_hit_iff w i hb (hbtn i)).2 hm
        rw [h1 i (Nat.zero_le _) (by omega)] at this
        exact absurd this (by simp)
      · simp only [h2]

/-- Instance of C4: of two regions that both match, the first is spawned,
once, and the button is cleared. -/
theorem wl_pointer_frame_dispatch_witness :
    demo_world.istate.button < 4294967296 ∧ (∀ i, (demo_world.clickables i).btn < 256) ∧
    (wl_pointer_frame demo_world).spawned = [some (bytes "first")] ∧
    (wl_pointer_frame demo_world).istate.button = 0 := by
  have hb : demo_world.istate.button < 4294967296 := by decide
  have hbtn : ∀ i, (demo_world.clickables i).btn < 256 := by
    intro i
    simp only [demo_world]
    split
    · decide
    · split <;> decide
  have hm0 : region_matches demo_world 0 := by
    unfold region_matches
    decide
  refine ⟨hb, hbtn, ?_⟩
  rcases (wl_pointer_frame_dispatch demo_world hb hbtn).2 (by decide) with
    ⟨i, _, _, hlow, heq⟩ | ⟨hnone, _⟩
  · have hi : i = 0 := by
      by_contra hne
      exact hlow 0 (by omega) hm0
    subst hi
    rw [heq]
    exact ⟨rfl, rfl⟩
  · exact absurd hm0 (hnone 0 (by decide))

/-- C5, where the code departs from the claim: the relative move `p(-10)`
at pen x = 5 on the bar of width 100 leaves x = 100, not 0.  The sum
`-10 + 5` is formed in `uint32_t`, wraps to `2^32 - 5` and is cut down to the
width by the upper clamp; `pa(-10)` does the same, and `p(-3)` from x = 5,
whose sum is not negative, gives 2. -/
theorem relative_move_left_wraps :
    pen_view (handle_cmd (demo_env align.ALIGN_L) 0 (demo_state (bytes "p(-10)") 5))
      = some (5, 100, 10) ∧
    pen_view (handle_cmd (demo_env align.ALIGN_L) 0 (demo_state (bytes "pa(-10)") 5))
      = some (6, 100, 10) ∧
    pen_view (handle_cmd (demo_env align.ALIGN_L) 0 (demo_state (bytes "p(-3)") 5))
      = some (4, 2, 10) ∧
    u32 (-10 + 5) = 4294967291 := by
  decide

/-- C6, where the code departs from the claim: the three examples of the
specification hold, and `a-50` with an ascent of 200 is the signed -100, but
`w-50` with a maximum of 200 is 42949572 and not -100: the product of the
`int` -50 and the `uint32_t` maximum is formed and divided as `uint32_t`. -/
theorem negative_percentage_of_width :
    parse_movement_arg demo_font (bytes "w50") 200 = 100 ∧
    parse_movement_arg demo_font (bytes "-w50") 200 = -100 ∧
    parse_movement_arg demo_font (bytes "abc") 200 = 0 ∧
    parse_movement_arg { demo_font with ascent := 200 } (bytes "a-50") 200 = -100 ∧
    parse_movement_arg { demo_font with descent := 200 } (bytes "d-50") 200 = -100 ∧
    parse_movement_arg demo_font (bytes "w-50") 200 = 42949572 := by
  decide

set_option maxRecDepth 100000 in
/-- C7, where the code departs from the claim: a line of 20 glyphs reaches
M = 200 on the bar of W = 100.  Left-aligned, its region is (0, 200).  Under
center alignment `xdraw` is `(2^32 + W - M) / 2 = 2147483598`, not
`(W - M) / 2 = -50`, and the region becomes (2147483598, 2147483798); under
right alignment the same subtraction, not halved, gives the signed -100. -/
theorem center_shift_of_wide_line :
    frame_view (draw_frame (demo_env align.ALIGN_L) line_wide (demo_state [] 0)) 0
      = some (0, 200, 1, 0, 0, ⟨0, 0, 200, 12, 1, some (bytes "x")⟩) ∧
    frame_view (draw_frame (demo_env align.ALIGN_C) line_wide (demo_state [] 0)) 0
      = some (2147483598, 200, 1, 0, 0, ⟨2147483598, 0, 2147483798, 12, 1, some (bytes "x")⟩) ∧
    frame_view (draw_frame (demo_env align.ALIGN_R) line_wide (demo_state [] 0)) 0
      = some (-100, 200, 1, 0, 0, ⟨u32 (0 - 100), 0, 100, 12, 1, some (bytes "x")⟩) ∧
    ((100 : Int) - 200) / 2 = -50 := by
  refine ⟨by decide, by decide, by decide, by decide⟩

/-- C8: a string of exactly 6 or 8 hexadecimal digits, with or without a
leading `#`, is accepted by `parse_color`, which sets red, green and blue to
the first three digit pairs times `0x101` and alpha to the fourth pair times
`0x101`, or to `0xffff` when there are 6 digits; the high byte (and the low
byte) of such a channel is the input byte. -/
theorem parse_color_roundtrip (ds : List Nat) (clr : pixman_color_t)
    (hlen : ds.length = 6 ∨ ds.length = 8) (hhex : ∀ c ∈ ds, isxdigit c = true) :
    parse_color ds clr =
      (0, { red := hex_pair ds 0 * 0x101, green := hex_pair ds 1 * 0x101,
            blue := hex_pair ds 2 * 0x101,
            alpha := if ds.length = 8 then hex_pair ds 3 * 0x101 else 0xffff }) ∧
    parse_color (35 :: ds) clr = parse_color ds clr ∧
    (∀ k, 2 * k + 1 < ds.length →
      hex_pair ds k < 256 ∧ hex_pair ds k * 0x101 < 65536 ∧
      hex_pair ds k * 0x101 / 256 = hex_pair ds k ∧
      hex_pair ds k * 0x101 % 256 = hex_pair ds k) := by
  have hpair : ∀ k, 2 * k + 1 < ds.length → hex_pair ds k < 256 := by
    intro k hk
    have h1 := xdigit_val_lt _ (all_getD isxdigit ds (2 * k) (List.all_eq_true.2 hhex) (by omega))
    have h2 := xdigit_val_lt _ (all_getD isxdigit ds (2 * k + 1) (List.all_eq_true.2 hhex) hk)
    unfold hex_pair
    omega
  have hkey : parse_color ds clr = (0, color_of_digits ds) ∧
      parse_color (35 :: ds) clr = parse_color ds clr := by
    rcases hlen with h6 | h8
    · match ds, h6, hhex with
      | [a, b, c, d, e, f], _, hhex =>
        have ha := hhex a (by simp)
        have hp : parse_color [a, b, c, d, e, f] clr = (0, color_of_digits [a, b, c, d, e, f]) :=
          parse_color_digits6 a b c d e f clr ha (hhex b (by simp)) (hhex c (by simp))
            (hhex d (by simp)) (hhex e (by simp)) (hhex f (by simp))
        refine ⟨hp, ?_⟩
        unfold parse_color
        rw [skip_hash_hash, skip_hash_of_xdigit a _ ha]
    · match ds, h8, hhex with
      | [a, b, c, d, e, f, g, h], _, hhex =>
        have ha := hhex a (by simp)
        have hp : parse_color [a, b, c, d, e, f, g, h] clr
            = (0, color_of_digits [a, b, c, d, e, f, g, h]) :=
          parse_color_digits8 a b c d e f g h clr ha (hhex b (by simp)) (hhex c (by simp))
            (hhex d (by simp)) (hhex e (by simp)) (hhex f (by simp)) (hhex g (by simp))
            (hhex h (by simp))
        refine ⟨hp, ?_⟩
        unfold parse_color
        rw [skip_hash_hash, skip_hash_of_xdigit a _ ha]
  refine ⟨hkey.1, hkey.2, ?_⟩
  intro k hk
  have := hpair k hk
  refine ⟨this, ?_, ?_, ?_⟩ <;> omega

/-- Instance of C8: `#a1b2C3d4` and `a1b2C3`. -/
theorem parse_color_roundtrip_witness :
    ((bytes "a1b2C3d4").length = 6 ∨ (bytes "a1b2C3d4").length = 8) ∧
    (∀ c ∈ bytes "a1b2C3d4", isxdigit c = true) ∧
    parse_color (bytes "#a1b2C3d4") ⟨0, 0, 0, 0⟩ = (0, ⟨0xa1a1, 0xb2b2, 0xc3c3, 0xd4d4⟩) ∧
    parse_color (bytes "a1b2C3") ⟨0, 0, 0, 0⟩ = (0, ⟨0xa1a1, 0xb2b2, 0xc3c3, 0xffff⟩) := by
  have h8 := parse_color_roundtrip (bytes "a1b2C3d4") ⟨0, 0, 0, 0⟩ (by decide) (by decide)
  have h6 := parse_color_roundtrip (bytes "a1b2C3") ⟨0, 0, 0, 0⟩ (by decide) (by decide)
  refine ⟨by decide, by decide, ?_, ?_⟩
  · have e : bytes "#a1b2C3d4" = 35 :: bytes "a1b2C3d4" := by decide
    rw [e, h8.2.1, h8.1]
    decide
  · rw [h6.1]
    decide

/-- C9: on a string without terminator `parse_color` fails exactly when the
string, after one optional leading `#`, is not 6 or 8 hexadecimal digits; a
failure returns 1 and leaves the colour untouched; and a `bg(...)` or
`fg(...)` command with such a (non-empty) argument changes nothing of the
render state but the line reported on `stderr`. -/
theorem parse_color_rejects_atomically (env : Env) (s : RenderState) (pre post str : List Nat)
    (clr : pixman_color_t) (hz : ∀ c ∈ str, c ≠ 0) :
    ((parse_color str clr).1 ≠ 0 ↔ valid_color str = false) ∧
    ((parse_color str clr).1 ≠ 0 → parse_color str clr = (1, clr)) ∧
    (valid_color str = false → str ≠ [] → (∀ c ∈ str, c ≠ 41) →
      handle_cmd env pre.length { s with text := pre ++ (bytes "bg" ++ 40 :: (str ++ 41 :: post)) }
        = .ok (pre.length + 2 + 1 + str.length,
            { s with text := pre ++ (bytes "bg" ++ 40 :: (str ++ 41 :: post)),
                     diag := s.diag ++ [Diag.bad_color str] }) ∧
      handle_cmd env pre.length { s with text := pre ++ (bytes "fg" ++ 40 :: (str ++ 41 :: post)) }
        = .ok (pre.length + 2 + 1 + str.length,
            { s with text := pre ++ (bytes "fg" ++ 40 :: (str ++ 41 :: post)),
                     diag := s.diag ++ [Diag.bad_color str] })) := by
  have hcases := fun c => parse_color_cases str c hz
  refine ⟨?_, ?_, ?_⟩
  · rcases hcases clr with ⟨h1, _, h3⟩ | ⟨h1, h3⟩
    · simp [h1, h3]
    · simp [h1, h3]
  · intro hne
    rcases hcases clr with ⟨h1, h2, _⟩ | ⟨h1, _⟩
    · exact Prod.ext h1 h2
    · exact absurd h1 hne
  · intro hbad hnil h41
    have ha : ∀ x ∈ str, x ≠ 41 ∧ x ≠ 0 := fun x hx => ⟨h41 x hx, hz x hx⟩
    have hhead : str.headD 0 ≠ 0 := by
      cases str with
      | nil => exact absurd rfl hnil
      | cons x xs => exact hz x (by simp)
    have hfail : ∀ c, parse_color str c = (1, c) := by
      intro c
      rcases hcases c with ⟨h1, h2, _⟩ | ⟨_, h3⟩
      · exact Prod.ext h1 h2
      · rw [hbad] at h3; exact absurd h3 (by simp)
    constructor
    · have hn : ∀ x ∈ [98, 103], x ≠ 40 ∧ x ≠ 0 := by
        intro x hx; simp at hx; omega
      rw [handle_cmd_parsed env _ pre [98, 103] str post (by simp [bytes_bg]) hn ha]
      unfold handle_cmd_dispatch
      simp only [zeroed_name pre [98, 103] str post hn, bytes_bg, if_true]
      unfold cmd_bg
      simp only [zeroed_peek, if_neg hhead, zeroed_arg pre [98, 103] str post ha, hfail]
      simp
    · have hn : ∀ x ∈ [102, 103], x ≠ 40 ∧ x ≠ 0 := by
        intro x hx; simp at hx; omega
      rw [handle_cmd_parsed env _ pre [102, 103] str post (by simp [bytes_fg]) hn ha]
      unfold handle_cmd_dispatch
      have hne : ¬ ([102, 103] : List Nat) = [98, 103] := by decide
      simp only [zeroed_name pre [102, 103] str post hn, bytes_bg, bytes_fg, if_neg hne, if_true]
      unfold cmd_fg
      simp only [zeroed_peek, if_neg hhead, zeroed_arg pre [102, 103] str post ha, hfail]
      simp

/-- Instance of C9: the 7-character `#12x456` inside `^bg(#12x456)`. -/
theorem parse_color_rejects_atomically_witness :
    (∀ c ∈ bytes "#12x456", c ≠ 0) ∧
    (parse_color (bytes "#12x456") ⟨1, 2, 3, 4⟩).1 ≠ 0 ∧
    parse_color (bytes "#12x456") ⟨1, 2, 3, 4⟩ = (1, ⟨1, 2, 3, 4⟩) ∧
    handle_cmd (demo_env align.ALIGN_L) (bytes "ab^").length
        { demo_state [] 0 with
          text := bytes "ab^" ++ (bytes "bg" ++ 40 :: (bytes "#12x456" ++ 41 :: bytes "cd")) }
      = .ok ((bytes "ab^").length + 2 + 1 + (bytes "#12x456").length,
          { demo_state [] 0 with
            text := bytes "ab^" ++ (bytes "bg" ++ 40 :: (bytes "#12x456" ++ 41 :: bytes "cd")),
            diag := (demo_state [] 0).diag ++ [Diag.bad_color (bytes "#12x456")] }) := by
  have h := parse_color_rejects_atomically (demo_env align.ALIGN_L) (demo_state [] 0)
    (bytes "ab^") (bytes "cd") (bytes "#12x456") ⟨1, 2, 3, 4⟩ (by decide)
  have hbad : valid_color (bytes "#12x456") = false := by decide
  have hfail := h.1.2 hbad
  exact ⟨by decide, hfail, h.2.1 hfail, (h.2.2 hbad (by decide) (by decide)).1⟩

/-- C10: whenever `handle_cmd` returns, the line buffer it leaves is the
buffer it was given, byte for byte; `parse_movement`, which cuts a `pa`/`p`
argument at its `;`, gives the buffer back unchanged on each of its paths. -/
theorem handle_cmd_preserves_line (env : Env) (cmd : Nat) (s : RenderState)
    (res : Nat × RenderState) (h : handle_cmd env cmd s = .ok res) :
    res.2.text = s.text ∧
    ∀ str xpos ypos xoffset yoffset,
      (parse_movement env s.text str xpos ypos xoffset yoffset).text = s.text :=
  ⟨handle_cmd_text env cmd s res h, fun _ _ _ _ _ => parse_movement_text _ _ _ _ _ _ _⟩

/-- Instance of C10: `^pa(w50;3)` (split at the `;`), the unknown `^zz(1)`
and the bad colour `^bg(xyz)`. -/
theorem handle_cmd_preserves_line_witness :
    handle_cmd (demo_env align.ALIGN_L) 1 (demo_state (bytes "^pa(w50;3)zz") 5)
      = .ok (9, { demo_state (bytes "^pa(w50;3)zz") 5 with xpos := 50, ypos := 3 }) ∧
    ({ demo_state (bytes "^pa(w50;3)zz") 5 with xpos := 50, ypos := 3 } : RenderState).text
      = bytes "^pa(w50;3)zz" ∧
    (∃ r, handle_cmd (demo_env align.ALIGN_L) 1 (demo_state (bytes "^zz(1)") 5) = .ok r ∧
      r.2.text = bytes "^zz(1)") ∧
    (∃ r, handle_cmd (demo_env align.ALIGN_L) 1 (demo_state (bytes "^bg(xyz)") 5) = .ok r ∧
      r.2.text = bytes "^bg(xyz)") := by
  have h1 : handle_cmd (demo_env align.ALIGN_L) 1 (demo_state (bytes "^pa(w50;3)zz") 5)
      = .ok (9, { demo_state (bytes "^pa(w50;3)zz") 5 with xpos := 50, ypos := 3 }) := by
    rfl
  have h2 : handle_cmd (demo_env align.ALIGN_L) 1 (demo_state (bytes "^zz(1)") 5)
      = .ok (5, { demo_state (bytes "^zz(1)") 5 with
                  diag := [Diag.unrecognized (bytes "zz")] }) := by
    rfl
  have h3 : handle_cmd (demo_env align.ALIGN_L) 1 (demo_state (bytes "^bg(xyz)") 5)
      = .ok (7, { demo_state (bytes "^bg(xyz)") 5 with
                  diag := [Diag.bad_color (bytes "xyz")] }) := by
    rfl
  exact ⟨h1, (handle_cmd_preserves_line _ _ _ _ h1).1,
    ⟨_, h2, (handle_cmd_preserves_line _ _ _ _ h2).1⟩,
    ⟨_, h3, (handle_cmd_preserves_line _ _ _ _ h3).1⟩⟩

set_option maxRecDepth 100000 in
/-- C12, where the code departs from the claim: after the line
`^ca(1,first)ab^ca()` has been rendered, the line `^ca(3)cd` (no comma,
reported as a bad click area) leaves `clickies = 1` with entry 0 holding the
new button 3 next to the old `x2 = 20`, `y2 = 12` and the old command
`first`, and the line `^ca(2,x)cd` (never closed) leaves entry 0 with the old
`x2`, `y2`; rendered first in a process the same lines leave `x2 = y2 = 0`
and, for the bad click area, no command. -/
theorem stale_region_fields_survive :
    frame_view (draw_frame (demo_env align.ALIGN_L) (bytes "^ca(3)cd") (demo_state [] 0)) 0
      = some (0, 20, 1, 0, 0, ⟨0, 0, 0, 0, 3, none⟩) ∧
    (renders (demo_env align.ALIGN_L) (demo_state [] 0) [line_first]).bind
        (fun s => frame_view (draw_frame (demo_env align.ALIGN_L) (bytes "^ca(3)cd") s) 0)
      = some (0, 20, 1, 0, 0, ⟨0, 0, 20, 12, 3, some (bytes "first")⟩) ∧
    frame_view (draw_frame (demo_env align.ALIGN_L) (bytes "^ca(2,x)cd") (demo_state [] 0)) 0
      = some (0, 20, 1, 1, 0, ⟨0, 0, 0, 0, 2, some (bytes "x")⟩) ∧
    (renders (demo_env align.ALIGN_L) (demo_state [] 0) [line_first]).bind
        (fun s => frame_view (draw_frame (demo_env align.ALIGN_L) (bytes "^ca(2,x)cd") s) 0)
      = some (0, 20, 1, 1, 0, ⟨0, 0, 20, 12, 2, some (bytes "x")⟩) := by
  refine ⟨by decide, by decide, by decide, by decide⟩

set_option maxRecDepth 100000 in
/-- C13, where the code departs from the claim: on `^abc`, `x^b(c` and
`^)(` the call of `handle_cmd` changes no colour, pen or region state and
returns the pointer it was given, but the loop then steps over that byte: the
first byte after the control character is never given to the decoder, so
`^abc` renders `bc` and `x^b(c` renders `x(c`. -/
theorem byte_after_control_is_dropped :
    state_view (handle_cmd (demo_env align.ALIGN_L) 1 (demo_state (bytes "^abc") 5))
      = some ⟨1, (demo_state [] 0).bg, (demo_state [] 0).fg, 5, 10, 0, 0⟩ ∧
    scan_view (draw_frame (demo_env align.ALIGN_L) (bytes "^abc") (demo_state [] 0))
      = some (bytes "bc", 4) ∧
    scan_view (draw_frame (demo_env align.ALIGN_L) (bytes "x^b(c") (demo_state [] 0))
      = some (bytes "x(c", 5) ∧
    scan_view (draw_frame (demo_env align.ALIGN_L) (bytes "^)(") (demo_state [] 0))
      = some (bytes "(", 3) := by
  refine ⟨by decide, by decide, by decide, by decide⟩

set_option maxRecDepth 100000 in
/-- C14, where the code departs from the claim: in the buffer that holds the
line `ab^`, its terminator at index 3 and the bytes `old` of a longer line
drawn before, the scan steps from the terminator to index 4, decodes `old`
and stops at index 7; when the terminator is the last byte of the buffer the
scan still goes on to read index 4. -/
theorem lone_control_steps_past_terminator :
    peek (bytes "ab^" ++ 0 :: (bytes "old" ++ [0])) 3 = 0 ∧
    scan_view (draw_frame (demo_env align.ALIGN_L) (bytes "ab^" ++ 0 :: (bytes "old" ++ [0]))
        (demo_state [] 0))
      = some (bytes "ab" ++ bytes "old", 7) ∧
    scan_view (draw_frame (demo_env align.ALIGN_L) (bytes "ab^" ++ [0]) (demo_state [] 0))
      = some (bytes "ab", 4) := by
  refine ⟨by decide, by decide, by decide⟩

/-- C15: from the initial scroll state (`cur_scroll = 0`,
`cur_scrollcarry = 0`, whatever axis is tracked), after any sequence of axis,
axis-stop and frame events whose axis values are at most `2^31 - 1 - 400` in
magnitude, the carry lies between 0 and `SCROLL_THRESHOLD` (400) and
`cur_scroll` is not negative. -/
theorem scroll_carry_bounded (w : World) (evs : List PointerEvent)
    (hs : w.cur_scroll = 0) (hc : w.cur_scrollcarry = 0)
    (hb : ∀ e ∈ evs, e.bounded = true) :
    0 ≤ (run_events w evs).cur_scrollcarry ∧
    (run_events w evs).cur_scrollcarry ≤ SCROLL_THRESHOLD ∧
    0 ≤ (run_events w evs).cur_scroll := by
  have hinit : 0 ≤ w.cur_scrollcarry ∧ w.cur_scrollcarry ≤ SCROLL_THRESHOLD ∧ 0 ≤ w.cur_scroll := by
    rw [hs, hc]; unfold SCROLL_THRESHOLD; omega
  clear hs hc
  unfold run_events
  induction evs generalizing w with
  | nil => exact hinit
  | cons e rest ih =>
    simp only [List.foldl_cons]
    exact ih (e.apply w) (fun x hx => hb x (by simp [hx]))
      (event_inv e w (hb e (by simp)) hinit)

/-- Instance of C15: one event of the largest admitted value, a frame, a
reversal and a stop leave the carry at 400. -/
theorem scroll_carry_bounded_witness :
    initial_world.cur_axis = -1 ∧ initial_world.cur_scroll = 0 ∧
    initial_world.cur_scrollcarry = 0 ∧
    (∀ e ∈ [PointerEvent.axis 0 2147483247, PointerEvent.frame,
            PointerEvent.axis 0 (-2147483247), PointerEvent.axis_stop 0], e.bounded = true) ∧
    0 ≤ (run_events initial_world [PointerEvent.axis 0 2147483247, PointerEvent.frame,
          PointerEvent.axis 0 (-2147483247), PointerEvent.axis_stop 0]).cur_scrollcarry ∧
    (run_events initial_world [PointerEvent.axis 0 2147483247, PointerEvent.frame,
          PointerEvent.axis 0 (-2147483247), PointerEvent.axis_stop 0]).cur_scrollcarry
      ≤ SCROLL_THRESHOLD ∧
    0 ≤ (run_events initial_world [PointerEvent.axis 0 2147483247, PointerEvent.frame,
          PointerEvent.axis 0 (-2147483247), PointerEvent.axis_stop 0]).cur_scroll :=
  ⟨rfl, rfl, rfl, by decide,
    scroll_carry_bounded initial_world _ rfl rfl (by decide)⟩

end Dtao
